/-
Verification of the EmbyNotifier notification aggregation engine.

This file gives a shallow embedding, in Lean 4, of the pure logic of
`notification_aggregator.py` together with its helpers from `utils.py` and
`parser.py`, and proves (or refutes) the behavioural properties stated in the
project specification.

Modelling conventions:
  * Python strings are Lean `String`s; character comparisons use Unicode code
    points (`Char.val`), matching Python string ordering.
  * Python `int(...)` / `float(...)` parsing is embedded for the decimal
    forms these code paths encounter (optional sign, digits, optional
    fractional part); a failed parse is `none`, mirroring the exception that
    the Python code catches.
  * Python floats are modelled as exact rationals (`ℚ`): every arithmetic
    operation performed by the aggregation code on the inputs appearing in
    the claims is exact in binary64, so the rational model agrees with the
    float computation there.
  * `list.sort()` is modelled by a stable insertion sort parameterised by the
    strict comparison Python uses; Python's sort is stable, and for the total
    orders appearing here the stable sort result is unique.
  * The Jinja2 single-message renderer and the Telegram transport are
    external collaborators of the engine (spec §2, §6); the engine model is
    parameterised by a rendering function and a delivery-success function,
    and deliveries are recorded as an output trace.
  * `threading.Lock` is non-reentrant; acquiring it is modelled explicitly
    where a method runs while the lock is already held: the acquisition
    blocks forever, which the model represents by `none`.
-/
import Mathlib

/-! ### Characters, digits, and Python-style number parsing -/

/-- The decimal digit character for `n % 10` (code point `48 + n % 10`). -/
def dchar (n : Nat) : Char := Char.ofNat (48 + n % 10)

/-- Numeric value of a decimal digit character. -/
def digitVal (c : Char) : Nat := c.val.toNat - 48

/-- Decimal digit run to a natural number (most significant first). -/
def digitsToNat (cs : List Char) : Nat :=
  cs.foldl (fun acc c => 10 * acc + digitVal c) 0

/-- Models Python `int(s)` on the decimal forms reaching these code paths:
optional surrounding whitespace, an optional single sign, then a nonempty
digit run.  A failed parse is `none` (Python raises `ValueError`, which the
callers catch). -/
def pyInt (cs : List Char) : Option Int :=
  let cs := (cs.dropWhile Char.isWhitespace).reverse.dropWhile Char.isWhitespace |>.reverse
  match cs with
  | '-' :: rest =>
      if rest ≠ [] ∧ rest.all Char.isDigit then some (-(digitsToNat rest : Int)) else none
  | '+' :: rest =>
      if rest ≠ [] ∧ rest.all Char.isDigit then some ((digitsToNat rest : Int)) else none
  | rest =>
      if rest ≠ [] ∧ rest.all Char.isDigit then some ((digitsToNat rest : Int)) else none

/-- Models Python `float(s)` on the decimal forms produced by the size
formatter: optional sign, digits, optional `.` followed by digits.  The value
is returned as an exact rational. -/
def pyFloat (cs : List Char) : Option ℚ :=
  let cs := (cs.dropWhile Char.isWhitespace).reverse.dropWhile Char.isWhitespace |>.reverse
  let core : List Char → Option ℚ := fun ds =>
    match ds.splitOn '.' with
    | [intPart] =>
        if intPart ≠ [] ∧ intPart.all Char.isDigit then
          some ((digitsToNat intPart : ℚ)) else none
    | [intPart, fracPart] =>
        if (intPart ≠ [] ∨ fracPart ≠ []) ∧ intPart.all Char.isDigit ∧
            fracPart.all Char.isDigit then
          some ((digitsToNat intPart : ℚ) +
                (digitsToNat fracPart : ℚ) / ((10 : ℚ) ^ fracPart.length))
        else none
    | _ => none
  match cs with
  | '-' :: rest => (core rest).map Neg.neg
  | '+' :: rest => core rest
  | rest => core rest

/-! ### Python string formatting helpers -/

/-- Models Python `f"{n:02d}"`: decimal rendering padded with zeros to at
least two characters (a sign counts towards the width). -/
def pad2 (n : Int) : String :=
  if n < 0 then "-" ++ toString (-n).toNat
  else if n < 10 then "0" ++ toString n.toNat
  else toString n.toNat

/-! ### Episode-code parsing and range compression
(`notification_aggregator.py`, `_merge_episode_ranges`, lines 444–500) -/

/-- `s.split('E')` on the character list: split on every `'E'`. -/
def splitE : List Char → List (List Char)
  | [] => [[]]
  | c :: t =>
    match splitE t with
    | [] => [[c]]
    | h :: r => if c = 'E' then [] :: h :: r else (c :: h) :: r

/-- Models the per-code parsing step of `_merge_episode_ranges`
(lines 455–463): `parts = ep.split('E'); season = int(parts[0][1:]);
episode = int(parts[1])`, with any exception mapping the code to the
synthetic triple `(0, 0, ep)`. -/
def parseEp (ep : String) : Int × Int × String :=
  match splitE ep.data with
  | p0 :: p1 :: _ =>
    match pyInt (p0.drop 1), pyInt p1 with
    | some season, some episode => (season, episode, ep)
    | _, _ => (0, 0, ep)
  | _ => (0, 0, ep)

/-- Whether the code parses as `S{season}E{episode}` (no exception in the
`try` block of lines 456–461). -/
def parseOk (ep : String) : Bool :=
  match splitE ep.data with
  | p0 :: p1 :: _ =>
    match pyInt (p0.drop 1), pyInt p1 with
    | some _, some _ => true
    | _, _ => false
  | _ => false

/-- Python string `<`: lexicographic comparison by code point. -/
def strLtB : List Char → List Char → Bool
  | [], [] => false
  | [], _ :: _ => true
  | _ :: _, [] => false
  | a :: s, b :: t =>
    if a.val.toNat < b.val.toNat then true
    else if b.val.toNat < a.val.toNat then false
    else strLtB s t

/-- Python string `<` lifted to `String`. -/
def pyStrLt (a b : String) : Bool := strLtB a.data b.data

/-- Python tuple `<` on `(season, episode, code)` triples: elementwise, first
difference decides. -/
def tripLt (x y : Int × Int × String) : Bool :=
  if x.1 < y.1 then true
  else if y.1 < x.1 then false
  else if x.2.1 < y.2.1 then true
  else if y.2.1 < x.2.1 then false
  else pyStrLt x.2.2 y.2.2

/-- Stable insertion into a sorted list: the new element is placed before the
first element not strictly below it (matching Python's stable sort). -/
def insertPy {α : Type} (lt : α → α → Bool) (x : α) : List α → List α
  | [] => [x]
  | y :: t => if lt y x then y :: insertPy lt x t else x :: y :: t

/-- Models Python `list.sort()` with strict comparison `lt`: stable sort. -/
def sortPy {α : Type} (lt : α → α → Bool) : List α → List α
  | [] => []
  | x :: xs => insertPy lt x (sortPy lt xs)

/-- Rendering of one run (lines 484–487 and 494–498): a single episode as
`S{season:02d}E{episode:02d}`, a longer run as
`S{season:02d}E{start:02d}-E{end:02d}`. -/
def renderRange (season start stop : Int) : String :=
  if start = stop then "S" ++ pad2 season ++ "E" ++ pad2 start
  else "S" ++ pad2 season ++ "E" ++ pad2 start ++ "-E" ++ pad2 stop

/-- The accumulation loop of `_merge_episode_ranges` (lines 469–498), with
the current run held as `(season, start, stop)`. -/
def mergeGo (season start stop : Int) : List (Int × Int × String) → List String
  | [] => [renderRange season start stop]
  | (s, e, _) :: t =>
    if s = season ∧ e = stop + 1 then mergeGo season start e t
    else renderRange season start stop :: mergeGo s e e t

/-- Models `_merge_episode_ranges` (lines 444–500): parse every code, sort
the `(season, episode, code)` triples, and merge consecutive episodes of one
season into ranges. -/
def mergeEpisodeRanges (episodes : List String) : List String :=
  match sortPy tripLt (episodes.map parseEp) with
  | [] => []
  | (s, e, _) :: rest => mergeGo s e e rest

/-- Models the episode-string construction of `_create_aggregated_message`
(lines 300–316): collect codes, `episodes.sort()`, then either the single
code or the comma-joined merged ranges. -/
def episodeRangeString (episodes : List String) : String :=
  match sortPy pyStrLt episodes with
  | [e] => e
  | es => String.intercalate ", " (mergeEpisodeRanges es)

/-! ### Specification-side range compression
(spec §4.1 `BuildAggregatedMessage` step 3, written from the spec's words, to
be compared with `mergeEpisodeRanges` above) -/

/-- The spec's adjacency relation within a run: "season is constant and
episode increments by exactly 1 from the previous entry". -/
def adjE (a b : Int × Int × String) : Prop := b.1 = a.1 ∧ b.2.1 = a.2.1 + 1

/-- Modelled from the spec: "group maximal runs where season is constant and
episode increments by exactly 1 from the previous entry in sorted order". -/
def specRuns : List (Int × Int × String) → List (List (Int × Int × String))
  | [] => []
  | x :: xs =>
    match specRuns xs with
    | [] => [[x]]
    | [] :: rest => [x] :: [] :: rest
    | (y :: ys) :: rest =>
      if y.1 = x.1 ∧ y.2.1 = x.2.1 + 1 then (x :: y :: ys) :: rest
      else [x] :: (y :: ys) :: rest

/-- Episode number of the last entry of a run (default `d` for an empty
remainder). -/
def runStop (d : Int) (rest : List (Int × Int × String)) : Int :=
  (rest.map (fun y => y.2.1)).getLastD d

/-- Modelled from the spec: "render a run of length 1 as
`S{season}E{episode}`, length >1 as `S{season}E{start}-E{end}`". -/
def renderRun : List (Int × Int × String) → String
  | [] => ""
  | [(s, e, _)] => "S" ++ pad2 s ++ "E" ++ pad2 e
  | (s, e, _) :: y :: ys =>
      "S" ++ pad2 s ++ "E" ++ pad2 e ++ "-E" ++ pad2 (runStop e (y :: ys))

/-- Bridge shape for the refinement proof: what the code's accumulation loop
produces, expressed over the spec-side run decomposition of the remainder. -/
def mergeSpecAux (season start stop : Int) :
    List (List (Int × Int × String)) → List String
  | [] => [renderRange season start stop]
  | [] :: cs => renderRange season start stop :: ([] :: cs).map renderRun
  | ((s, e, str) :: c) :: cs =>
    if s = season ∧ e = stop + 1 then
      renderRange season start (runStop e c) :: cs.map renderRun
    else
      renderRange season start stop :: (((s, e, str) :: c) :: cs).map renderRun

/-! ### Human-readable sizes (`utils.py`, `format_size`, lines 16–37, and
`notification_aggregator.py`, lines 324–347) -/

/-- Python `str.split()` with no argument: split on whitespace runs,
discarding empty pieces. -/
def splitWs : List Char → List (List Char)
  | [] => []
  | c :: t =>
    if c.isWhitespace then splitWs t
    else
      match t with
      | [] => [[c]]
      | d :: _ =>
        if d.isWhitespace then [c] :: splitWs t
        else
          match splitWs t with
          | [] => [[c]]
          | h :: rt => (c :: h) :: rt

/-- `str.split()` lifted to `String`. -/
def pySplitWs (s : String) : List String := (splitWs s.data).map List.asString

/-- Size contribution of one notification's `total_size` string
(lines 328–344): split into value and unit, parse the value as a float, and
convert with 1024-based factors for `GB`/`MB`/`KB`; an unknown unit
contributes the bare value, and any parse failure contributes `0` (the
`except: pass`). -/
def sizeContribution (sizeStr : Option String) : ℚ :=
  match sizeStr with
  | none => 0
  | some s =>
    if s = "" then 0
    else
      match pySplitWs s with
      | [v, u] =>
        match pyFloat v.data with
        | none => 0
        | some x =>
          if u = "GB" then x * 1024 * 1024 * 1024
          else if u = "MB" then x * 1024 * 1024
          else if u = "KB" then x * 1024
          else x
      | _ => 0

/-- Whether a size string parses (two whitespace-separated pieces whose
first is a float): exactly the condition under which the `try` block of
lines 332–344 succeeds. -/
def parsesAsSize (s : String) : Bool :=
  match pySplitWs s with
  | [v, _] => (pyFloat v.data).isSome
  | _ => false

/-- The `total_size` accumulation loop of `_create_aggregated_message`
(lines 324–344), over the stored `total_size` template variables. -/
def aggregatedSizeQ (sizes : List (Option String)) : ℚ :=
  sizes.foldl (fun acc s => acc + sizeContribution s) 0

/-- Python `int(f)` on a float: truncation toward zero. -/
def pyIntTrunc (q : ℚ) : Int := if q < 0 then -((-q).floor) else q.floor

/-- Round half to even (the rounding used by Python's `%.2f` formatting; the
values formatted here are exact in binary64). -/
def roundHalfEven (q : ℚ) : Int :=
  let f := q.floor
  let r := q - (f : ℚ)
  if r < 1 / 2 then f
  else if 1 / 2 < r then f + 1
  else if f % 2 = 0 then f else f + 1

/-- Python `f"{x:.2f}"`. -/
def fmt2 (q : ℚ) : String :=
  let n := roundHalfEven (q * 100)
  let m := n.natAbs
  (if n < 0 then "-" else "") ++ toString (m / 100) ++ "." ++
    (if m % 100 < 10 then "0" ++ toString (m % 100) else toString (m % 100))

/-- The `while size >= 1024.0 and i < len(size_names) - 1` loop of
`format_size`; at most four iterations, hence fuel 4. -/
def fsLoop : Nat → ℚ → Nat → ℚ × Nat
  | 0, size, i => (size, i)
  | fuel + 1, size, i =>
    if 1024 ≤ size ∧ i < 4 then fsLoop fuel (size / 1024) (i + 1) else (size, i)

/-- The unit names of `format_size`. -/
def sizeNames : List String := ["B", "KB", "MB", "GB", "TB"]

/-- Models `utils.format_size` (lines 16–37). -/
def format_size (sizeBytes : Int) : String :=
  if sizeBytes = 0 then "0 B"
  else
    let p := fsLoop 4 (sizeBytes : ℚ) 0
    fmt2 p.1 ++ " " ++ sizeNames.getD p.2 "TB"

/-! ### Template variables and the aggregated message
(`notification_aggregator.py`, `_create_aggregated_message`, lines 284–442) -/

/-- The template variables of one parsed notification that the aggregation
code reads (`parser.py` builds the full dictionary; only the fields consumed
by the aggregator are modelled).  `tmdbImageUrl` models the cached
`_tmdb_image_url` entry; the live TMDB lookup is an external collaborator
and is represented by the cached value only. -/
structure TemplateVars where
  titleYear : String := ""
  seasonEpisode : Option String := none
  voteAverage : Option ℚ := none
  category : Option String := none
  resourceQuality : String := ""
  videoWidth : Nat := 0
  videoHeight : Nat := 0
  totalSize : Option String := none
  tmdbId : Option String := none
  imdbId : Option String := none
  doubanId : Option String := none
  overview : Option String := none
  tmdbImageUrl : Option String := none
  deriving DecidableEq

/-- Python truthiness of an optional string (`None` and `""` are falsy). -/
def truthyS : Option String → Bool
  | none => false
  | some s => s ≠ ""

/-- Python truthiness of an optional number (`None` and `0` are falsy). -/
def truthyQ : Option ℚ → Bool
  | none => false
  | some q => q ≠ 0

/-- Python `str(x)` for an optional string (`None` renders as `"None"`). -/
def showOptS : Option String → String
  | some s => s
  | none => "None"

/-- Rendering of a numeric template value inside an f-string.  No claim
depends on the exact digits, only on the line's leading characters. -/
def showQ (q : ℚ) : String :=
  toString q.num ++ (if q.den = 1 then "" else "/" ++ toString q.den)

/-- Python `s.lower()`. -/
def pyLower (s : String) : String := List.asString (s.data.map Char.toLower)

/-- Whether `needle` occurs at the very start of `hay`. -/
def startsSeq : List Char → List Char → Bool
  | [], _ => true
  | _ :: _, [] => false
  | a :: s, b :: t => a == b && startsSeq s t

/-- Whether `needle` occurs somewhere inside `hay`. -/
def containsSeq (needle : List Char) : List Char → Bool
  | [] => needle.isEmpty
  | c :: t => startsSeq needle (c :: t) || containsSeq needle t

/-- Python `needle in hay` on strings. -/
def pyIn (needle hay : String) : Bool := containsSeq needle.data hay.data

/-- The `Item` object stored inside one extracted webhook entry; only the
fields the aggregator reads are modelled. -/
structure Item where
  seriesId : Option String := none
  seasonId : Option String := none
  deriving DecidableEq

/-- One queued notification: its parsed template variables and the item list
that `EmbyDataParser._extract_items` recovers from the stored raw `data`
(each element being that entry's `Item` object). -/
structure Notif where
  vars : TemplateVars
  items : List Item
  deriving DecidableEq

/-- A delivered Telegram message: title, text, and optional photo URL. -/
structure Msg where
  title : String
  text : String
  photo : Option String := none
  deriving DecidableEq

/-- Log levels of the `logging` calls modelled. -/
inductive LogLevel
  | debug
  | info
  | warning
  | error
  deriving DecidableEq

/-- The episode-code collection loop (lines 301–305): keep each truthy
`season_episode`. -/
def collectEpisodes (notifs : List Notif) : List String :=
  notifs.filterMap fun n =>
    match n.vars.seasonEpisode with
    | some se => if se = "" then none else some se
    | none => none

/-- The resolution-tier thresholds of lines 375–380. -/
def resLabel (w h : Nat) : String :=
  if 3800 ≤ w ∨ 2000 ≤ h then "2160p (4K)"
  else if 1900 ≤ w ∨ 1000 ≤ h then "1080p"
  else if 1200 ≤ w ∨ 700 ≤ h then "720p"
  else ""

/-- The HDR-tag extraction of lines 382–391. -/
def hdrText (resourceQuality : String) : String :=
  if resourceQuality = "" then ""
  else
    let rq := pyLower resourceQuality
    let hdrs : List String :=
      (if pyIn "hdr" rq && !pyIn "dv" rq then ["HDR10"] else []) ++
      (if pyIn "dolby vision" rq || pyIn "dv" rq then ["Dolby Vision"] else []) ++
      (if pyIn "imax" rq then ["IMAX"] else [])
    String.intercalate "｜" hdrs

/-- The quality line of lines 393–397 (absent when both parts are empty). -/
def qualityLine (rl ht : String) : List String :=
  if rl ≠ "" ∨ ht ≠ "" then
    [("🖼 质量：" ++ (if ht ≠ "" then (if rl ≠ "" then rl ++ "｜" ++ ht else ht) else rl))]
  else []

/-- A hexadecimal digit character (uppercase, as `urllib.parse.quote`
produces). -/
def hexChar (n : Nat) : Char :=
  if n % 16 < 10 then Char.ofNat (48 + n % 16) else Char.ofNat (55 + n % 16)

/-- Percent-encoding of one UTF-8 byte. -/
def percentEncodeByte (b : Nat) : List Char :=
  ['%', hexChar (b / 16 % 16), hexChar (b % 16)]

/-- Models `urllib.parse.quote` with the default `safe='/'`: keep unreserved
characters and `/`, percent-encode the UTF-8 bytes of everything else. -/
def pyQuote (s : String) : String :=
  List.asString (s.data.foldr (fun c acc =>
    (if c.isAlphanum || c == '_' || c == '.' || c == '-' || c == '~' || c == '/'
     then [c]
     else (String.utf8EncodeChar c).foldr
       (fun b acc2 => percentEncodeByte b.toNat ++ acc2) []) ++ acc) [])

/-- The links section of lines 417–438, from the first notification's
variables. -/
def aggLinks (fv : TemplateVars) : List String :=
  (if truthyS fv.tmdbId then
    ["🔗 [TMDB](https://www.themoviedb.org/tv/" ++ fv.tmdbId.getD "" ++ ")"]
   else []) ++
  (if truthyS fv.doubanId then
    ["🎬 [豆瓣](https://movie.douban.com/subject/" ++ fv.doubanId.getD "" ++ "/)"]
    else if truthyS fv.imdbId then
    ["🎬 [豆瓣](https://www.douban.com/search?cat=1002&q=" ++ fv.imdbId.getD "" ++ ")"]
    else if fv.titleYear ≠ "" then
    ["🎬 [豆瓣](https://www.douban.com/search?cat=1002&q=" ++ pyQuote fv.titleYear ++ ")"]
    else []) ++
  (if truthyS fv.imdbId then
    ["🌟 [IMDb](https://www.imdb.com/title/" ++ fv.imdbId.getD "" ++ "/)"]
   else [])

/-- The overview truncation of line 413: first 160 characters plus an
ellipsis when longer. -/
def truncate160 (s : String) : String :=
  List.asString (s.data.take 160) ++ (if 160 < s.data.length then "…" else "")

/-- The aggregated total-size string of lines 346–347: formatted only when
the sum is positive. -/
def totalSizeStr (notifs : List Notif) : Option String :=
  let q := aggregatedSizeQ (notifs.map (fun n => n.vars.totalSize))
  if 0 < q then some (format_size (pyIntTrunc q)) else none

/-- The `text_parts` list of `_create_aggregated_message` (lines 350–438). -/
def aggregatedParts (notifs : List Notif) : List String :=
  match notifs with
  | [] => []
  | first :: _ =>
    let fv := first.vars
    ["📢 媒体库：Emby"] ++
    (if truthyQ fv.voteAverage then
      ["⭐️ 评分：" ++ showQ (fv.voteAverage.getD 0) ++ "/10"] else []) ++
    ["📺 媒体类型：剧集"] ++
    (if truthyS fv.category then ["🏷 归类：" ++ fv.category.getD ""] else []) ++
    qualityLine (resLabel fv.videoWidth fv.videoHeight) (hdrText fv.resourceQuality) ++
    ["📂 文件：" ++ toString notifs.length ++ " 个"] ++
    (match totalSizeStr notifs with
     | some s => if s ≠ "" then ["💾 总大小：" ++ s] else []
     | none => []) ++
    (if truthyS fv.tmdbId then ["🍿 TMDB ID：" ++ fv.tmdbId.getD ""] else []) ++
    (if truthyS fv.overview then
      ["\n📝 简介：" ++ truncate160 (fv.overview.getD "")] else []) ++
    (if aggLinks fv ≠ [] then
      ["\n🌐 链接：", String.intercalate " | " (aggLinks fv)] else [])

/-- The aggregated title of lines 318–320. -/
def aggregatedTitle (notifs : List Notif) : String :=
  match notifs with
  | [] => ""
  | first :: _ =>
    "🎬 " ++ first.vars.titleYear ++ " " ++
      episodeRangeString (collectEpisodes notifs) ++ " 已入库（共 " ++
      toString notifs.length ++ " 集）"

/-- Models `_create_aggregated_message` (lines 284–442): the aggregated
title and the newline-joined body parts. -/
def createAggregatedMessage (notifs : List Notif) : String × String :=
  match notifs with
  | [] => ("", "")
  | _ :: _ =>
    (aggregatedTitle notifs, String.intercalate "\n" (aggregatedParts notifs))

/-! ### The aggregation engine
(`notification_aggregator.py`, lines 105–226 and 594–603).  The Jinja2
renderer is an external collaborator: the model takes the rendering function
`render` as a parameter, and delivery success as a predicate on messages. -/

/-- The single-episode delivery of `_send_episode_notification`
(lines 174–182) and of the batch-of-one flush (lines 209–215): render the
variables and attach the poster. -/
def singleEpisodeMsg (render : TemplateVars → String × String)
    (v : TemplateVars) : Msg :=
  { title := (render v).1, text := (render v).2, photo := v.tmdbImageUrl }

/-- The aggregation key of line 128: `f"{series_id}_{season_id}"`. -/
def aggregationKey (seriesId seasonId : String) : String :=
  seriesId ++ "_" ++ seasonId

/-- Association-list lookup (Python `dict` access by key). -/
def lookupA {β : Type} : List (String × β) → String → Option β
  | [], _ => none
  | (k, v) :: t, key => if k = key then some v else lookupA t key

/-- Association-list removal (Python `dict.pop` / `del`); keys are unique by
construction. -/
def eraseA {β : Type} : List (String × β) → String → List (String × β)
  | [], _ => []
  | (k, v) :: t, key => if k = key then t else (k, v) :: eraseA t key

/-- Association-list assignment (Python `dict[key] = value`): replace in
place, or append a new binding (insertion order preserved). -/
def setA {β : Type} : List (String × β) → String → β → List (String × β)
  | [], key, v => [(key, v)]
  | (k, w) :: t, key, v => if k = key then (k, v) :: t else (k, w) :: setA t key v

/-- `self.pending_notifications[aggregation_key].append(...)` on the
`defaultdict(list)` (line 137). -/
def appendPending (p : List (String × List Notif)) (key : String) (n : Notif) :
    List (String × List Notif) :=
  match lookupA p key with
  | some l => setA p key (l ++ [n])
  | none => p ++ [(key, [n])]

/-- The aggregator's shared state: the pending map, the timer map (each
timer as its absolute scheduled fire time), the current time, and the
configured aggregation delay. -/
structure AggState where
  pending : List (String × List Notif) := []
  timers : List (String × Nat) := []
  now : Nat := 0
  delay : Nat := 10
  deriving DecidableEq

/-- The inner comparison loop of `_validate_notifications_consistency`
(lines 259–276), with its log entries. -/
def validateLoop (expS expT : Option String) (key : String) :
    List Notif → Bool × List (LogLevel × String)
  | [] => (true, [])
  | n :: rest =>
    match n.items with
    | [] => (false, [(.warning, "通知数据格式异常，聚合键: " ++ key)])
    | it :: _ =>
      if it.seriesId = expS ∧ it.seasonId = expT then validateLoop expS expT key rest
      else (false, [(.error,
        "聚合键 " ++ key ++ " 包含不同剧集的通知！期望: SeriesId=" ++ showOptS expS ++
        ", SeasonId=" ++ showOptS expT ++ ", 实际: SeriesId=" ++
        showOptS it.seriesId ++ ", SeasonId=" ++ showOptS it.seasonId)])

/-- Models `_validate_notifications_consistency` (lines 228–282). -/
def validateNotificationsConsistency (notifs : List Notif) (key : String) :
    Bool × List (LogLevel × String) :=
  if notifs.length ≤ 1 then (true, [])
  else
    match notifs with
    | [] => (true, [])
    | first :: rest =>
      match first.items with
      | [] => (false, [])
      | it :: _ =>
        if ¬ truthyS it.seriesId ∨ ¬ truthyS it.seasonId then (false, [])
        else validateLoop it.seriesId it.seasonId key rest

/-- Models `_send_aggregated_notification` (lines 184–226), entered with the
lock free: remove the batch and its timer, then deliver according to the
consistency check and batch size.  Returns the new state, the delivered
messages in order, and the anomaly log entries. -/
def sendAggregatedCore (render : TemplateVars → String × String)
    (st : AggState) (key : String) :
    AggState × List Msg × List (LogLevel × String) :=
  match lookupA st.pending key with
  | none => (st, [], [])
  | some notifs =>
    let st2 : AggState :=
      { st with pending := eraseA st.pending key, timers := eraseA st.timers key }
    match notifs with
    | [] => (st2, [], [])
    | first :: _ =>
      let v := validateNotificationsConsistency notifs key
      if ¬ v.1 then
        (st2,
          notifs.map (fun n =>
            { title := (render n.vars).1, text := (render n.vars).2, photo := none }),
          v.2 ++ [(.warning, "聚合键 " ++ key ++ " 的通知不一致，分别发送")])
      else if notifs.length = 1 then
        (st2, [singleEpisodeMsg render first.vars],
          [(.info, "发送单集通知: " ++ key)])
      else
        (st2,
          [{ title := (createAggregatedMessage notifs).1,
             text := (createAggregatedMessage notifs).2,
             photo := first.vars.tmdbImageUrl }],
          [(.info, "发送聚合通知: " ++ key ++ ", 共 " ++ toString notifs.length ++ " 集")])

/-- Models `_add_episode_notification` (lines 105–162): missing or empty
`SeriesId`/`SeasonId` degrades to an immediate single send; otherwise the
notification is appended under its aggregation key and the key's timer is
cancelled and replaced by one scheduled `delay` after now.  Returns the new
state, any immediately delivered messages, the anomaly log entries, and the
method's return value. -/
def addEpisodeNotification (render : TemplateVars → String × String)
    (sendOk : Msg → Bool) (st : AggState) (n : Notif) :
    AggState × List Msg × List (LogLevel × String) × Bool :=
  match n.items with
  | [] => (st, [], [], false)
  | it :: _ =>
    if ¬ truthyS it.seriesId ∨ ¬ truthyS it.seasonId then
      (st, [singleEpisodeMsg render n.vars],
        [(.warning, "无法获取 SeriesId 或 SeasonId，直接发送通知")],
        sendOk (singleEpisodeMsg render n.vars))
    else
      ({ st with
          pending := appendPending st.pending
            (aggregationKey (it.seriesId.getD "") (it.seasonId.getD "")) n,
          timers := setA st.timers
            (aggregationKey (it.seriesId.getD "") (it.seasonId.getD ""))
            (st.now + st.delay) },
        [], [], true)

/-! ### `flush_all` and the non-reentrant lock (lines 594–603) -/

/-- `_send_aggregated_notification` begins with `with self.lock:`
(line 187).  `threading.Lock` is not reentrant: when the calling thread
already holds the lock, the acquisition blocks forever, modelled as `none`. -/
def sendAggregatedNotification (render : TemplateVars → String × String)
    (locked : Bool) (st : AggState) (key : String) :
    Option (AggState × List Msg × List (LogLevel × String)) :=
  if locked then none else some (sendAggregatedCore render st key)

/-- The `for key in keys` loop of `flush_all` (lines 598–603), executed
while `flush_all` itself holds the lock: the timer is cancelled, then
`_send_aggregated_notification(key)` is invoked synchronously with the lock
held. -/
def flushAllLoop (render : TemplateVars → String × String) :
    List String → AggState → List Msg → Option (AggState × List Msg)
  | [], st, acc => some (st, acc)
  | key :: rest, st, acc =>
    match sendAggregatedNotification render true st key with
    | none => none
    | some (st2, out, _) => flushAllLoop render rest st2 (acc ++ out)

/-- Models `flush_all` (lines 594–603): under `with self.lock:`, iterate
over the pending keys and flush each.  `none` means the call never
returns. -/
def flushAll (render : TemplateVars → String × String) (st : AggState) :
    Option (AggState × List Msg) :=
  flushAllLoop render (st.pending.map Prod.fst) st []

/-! ### Timer semantics (lines 135–156), time-abstracted
(`threading.Timer(delay, ...)` as an absolute fire time) -/

/-- One submission to a single key at time `t`: a previously scheduled timer
that has already expired fires first (flushing and recording its fire time);
then the pending timer is cancelled and a fresh one is scheduled at
`t + delay` (lines 143–154). -/
def stepSub (delay : Nat) (st : Option Nat × List Nat) (t : Nat) :
    Option Nat × List Nat :=
  let fired : List Nat :=
    match st.1 with
    | some ft => if ft ≤ t then st.2 ++ [ft] else st.2
    | none => st.2
  (some (t + delay), fired)

/-- Process the submissions to one key in time order. -/
def runSubs (delay : Nat) (ts : List Nat) : Option Nat × List Nat :=
  ts.foldl (stepSub delay) (none, [])

/-- All flush times for one key: those fired during the run plus the final
timer's expiry. -/
def flushTimes (delay : Nat) (ts : List Nat) : List Nat :=
  (runSubs delay ts).2 ++
    (match (runSubs delay ts).1 with
     | some ft => [ft]
     | none => [])

/-! ### The extractor's canonical episode codes
(`parser.py`, `_extract_season_info`, lines 163–178) -/

/-- Python `f"{n:02d}"` for a natural number. -/
def pyFormat02 (n : Nat) : String :=
  if n < 10 then "0" ++ toString n else toString n

/-- The canonical episode code built by `_extract_season_info` (line 173):
`f"S{parent_index_number:02d}E{index_number:02d}"`. -/
def extractorCode (season episode : Nat) : String :=
  "S" ++ pyFormat02 season ++ "E" ++ pyFormat02 episode

/-- Numeric order on `(season, episode)` pairs: season first, then
episode (strict comparison for sorting). -/
def pairLt (p q : Nat × Nat) : Bool :=
  if p.1 < q.1 then true
  else if q.1 < p.1 then false
  else decide (p.2 < q.2)

example : episodeRangeString ["S01E01", "S01E02", "S01E03", "S01E05"] =
    "S01E01-E03, S01E05" := by decide
example : episodeRangeString ["S02E01"] = "S02E01" := by decide
example : mergeEpisodeRanges ["S01E01", "foo"] = ["S00E00", "S01E01"] := by decide
example : mergeEpisodeRanges ["S00E01", "foo"] = ["S00E00-E01"] := by decide

lemma specRuns_sound :
    ∀ l : List (Int × Int × String), ∀ c ∈ specRuns l,
      ∃ z zs, c = z :: zs ∧ List.Chain adjE z zs := by
  intro l
  induction l with
  | nil => simp [specRuns]
  | cons x xs ih =>
    intro c hc
    simp only [specRuns] at hc
    cases h : specRuns xs with
    | nil =>
      rw [h] at hc
      simp only [List.mem_singleton] at hc
      subst hc
      exact ⟨x, [], rfl, .nil⟩
    | cons c0 cs =>
      rw [h] at hc
      cases c0 with
      | nil =>
        exfalso
        obtain ⟨z, zs, hz, -⟩ := ih [] (by rw [h]; exact List.mem_cons_self ..)
        cases hz
      | cons y ys =>
        dsimp only at hc
        by_cases hadj : y.1 = x.1 ∧ y.2.1 = x.2.1 + 1
        · rw [if_pos hadj] at hc
          rcases List.mem_cons.mp hc with rfl | hmem
          · obtain ⟨z, zs, hz, hchain⟩ :=
              ih (y :: ys) (by rw [h]; exact List.mem_cons_self ..)
            cases hz
            exact ⟨x, y :: ys, rfl, .cons ⟨hadj.1, hadj.2⟩ hchain⟩
          · exact ih _ (by rw [h]; exact List.mem_cons_of_mem _ hmem)
        · rw [if_neg hadj] at hc
          rcases List.mem_cons.mp hc with rfl | hmem
          · exact ⟨x, [], rfl, .nil⟩
          · exact ih _ (by rw [h]; exact hmem)

lemma runStop_nil (d : Int) : runStop d [] = d := rfl

lemma runStop_cons (d : Int) (y : Int × Int × String)
    (ys : List (Int × Int × String)) : runStop d (y :: ys) = runStop y.2.1 ys := by
  unfold runStop
  rw [List.map_cons, List.getLastD_cons]

lemma chain_runStop :
    ∀ (zs : List (Int × Int × String)) (z : Int × Int × String),
      List.Chain adjE z zs → runStop z.2.1 zs = z.2.1 + zs.length := by
  intro zs
  induction zs with
  | nil => intro z _; simp [runStop_nil]
  | cons y ys ih =>
    intro z hch
    cases hch with
    | cons hzy hch' =>
      rw [runStop_cons, ih y hch', hzy.2]
      simp only [List.length_cons]
      push_cast
      ring

lemma renderRange_eq_of_ne (s a b : Int) (h : a ≠ b) :
    renderRange s a b = "S" ++ pad2 s ++ "E" ++ pad2 a ++ "-E" ++ pad2 b := by
  simp [renderRange, h]

lemma renderRun_single (s e : Int) (str : String) :
    renderRun [(s, e, str)] = renderRange s e e := by
  simp [renderRun, renderRange]

lemma renderRun_cons_cons (xs xe : Int) (xstr : String) (y : Int × Int × String)
    (ys : List (Int × Int × String)) (h : xe ≠ runStop y.2.1 ys) :
    renderRun ((xs, xe, xstr) :: y :: ys) = renderRange xs xe (runStop y.2.1 ys) := by
  simp only [renderRun, runStop_cons]
  rw [renderRange_eq_of_ne _ _ _ h]

/-- The last episode of a chunk of `specRuns` strictly exceeds the episode
just before the chunk whenever the chunk head is adjacent to it. -/
lemma chunk_runStop_ne (t : List (Int × Int × String))
    (y : Int × Int × String) (ys : List (Int × Int × String))
    (cs : List (List (Int × Int × String)))
    (h : specRuns t = (y :: ys) :: cs) (xe : Int) (hy : y.2.1 = xe + 1) :
    xe ≠ runStop y.2.1 ys := by
  have hchain : List.Chain adjE y ys := by
    obtain ⟨z, zs, hz, hchain⟩ :=
      specRuns_sound t (y :: ys) (by rw [h]; exact List.mem_cons_self ..)
    cases hz
    exact hchain
  rw [chain_runStop ys y hchain, hy]
  intro hcontra
  omega

lemma mergeGo_eq_spec :
    ∀ (rest : List (Int × Int × String)) (season start stop : Int),
      mergeGo season start stop rest =
        mergeSpecAux season start stop (specRuns rest) := by
  intro rest
  induction rest with
  | nil => intro season start stop; rfl
  | cons x t ih =>
    intro season start stop
    obtain ⟨xs, xe, xstr⟩ := x
    by_cases hx : xs = season ∧ xe = stop + 1
    · have hgo : mergeGo season start stop ((xs, xe, xstr) :: t) =
          mergeGo season start xe t := by
        simp only [mergeGo]
        rw [if_pos hx]
      rw [hgo, ih season start xe]
      simp only [specRuns]
      cases h : specRuns t with
      | nil =>
        simp only [mergeSpecAux]
        rw [if_pos hx, runStop_nil]
        simp
      | cons c0 cs =>
        cases c0 with
        | nil =>
          exfalso
          obtain ⟨z, zs, hz, -⟩ :=
            specRuns_sound t [] (by rw [h]; exact List.mem_cons_self ..)
          cases hz
        | cons y ys =>
          dsimp only
          by_cases hadj : y.1 = xs ∧ y.2.1 = xe + 1
          · rw [if_pos hadj]
            simp only [mergeSpecAux]
            have hL : y.1 = season ∧ y.2.1 = xe + 1 := ⟨hadj.1.trans hx.1, hadj.2⟩
            rw [if_pos hL, if_pos hx, runStop_cons]
          · rw [if_neg hadj]
            simp only [mergeSpecAux]
            have hL : ¬(y.1 = season ∧ y.2.1 = xe + 1) := fun hc =>
              hadj ⟨hc.1.trans hx.1.symm, hc.2⟩
            rw [if_neg hL, if_pos hx, runStop_nil]
    · have hgo : mergeGo season start stop ((xs, xe, xstr) :: t) =
          renderRange season start stop :: mergeGo xs xe xe t := by
        simp only [mergeGo]
        rw [if_neg hx]
      rw [hgo, ih xs xe xe]
      simp only [specRuns]
      cases h : specRuns t with
      | nil =>
        simp only [mergeSpecAux]
        rw [if_neg hx]
        simp [renderRun_single]
      | cons c0 cs =>
        cases c0 with
        | nil =>
          exfalso
          obtain ⟨z, zs, hz, -⟩ :=
            specRuns_sound t [] (by rw [h]; exact List.mem_cons_self ..)
          cases hz
        | cons y ys =>
          dsimp only
          by_cases hadj : y.1 = xs ∧ y.2.1 = xe + 1
          · rw [if_pos hadj]
            simp only [mergeSpecAux]
            rw [if_neg hx, if_pos hadj]
            have hne : xe ≠ runStop y.2.1 ys :=
              chunk_runStop_ne t y ys cs h xe hadj.2
            rw [List.map_cons, renderRun_cons_cons xs xe xstr y ys hne]
          · rw [if_neg hadj]
            simp only [mergeSpecAux]
            rw [if_neg hx, if_neg hadj]
            simp [renderRun_single]

/-- `mergeEpisodeRanges` renders exactly the spec's maximal-run
decomposition of the sorted parsed codes. -/
lemma mergeEpisodeRanges_eq_specRuns (episodes : List String) :
    mergeEpisodeRanges episodes =
      (specRuns (sortPy tripLt (episodes.map parseEp))).map renderRun := by
  unfold mergeEpisodeRanges
  cases h : sortPy tripLt (episodes.map parseEp) with
  | nil => simp [specRuns]
  | cons x rest =>
    obtain ⟨xs, xe, xstr⟩ := x
    dsimp only
    rw [mergeGo_eq_spec]
    simp only [specRuns]
    cases h2 : specRuns rest with
    | nil =>
      simp only [mergeSpecAux]
      simp [renderRun_single]
    | cons c0 cs =>
      cases c0 with
      | nil =>
        exfalso
        obtain ⟨z, zs, hz, -⟩ :=
          specRuns_sound rest [] (by rw [h2]; exact List.mem_cons_self ..)
        cases hz
      | cons y ys =>
        dsimp only
        by_cases hadj : y.1 = xs ∧ y.2.1 = xe + 1
        · rw [if_pos hadj]
          simp only [mergeSpecAux]
          rw [if_pos hadj]
          have hne : xe ≠ runStop y.2.1 ys :=
            chunk_runStop_ne rest y ys cs h2 xe hadj.2
          rw [List.map_cons, renderRun_cons_cons xs xe xstr y ys hne]
        · rw [if_neg hadj]
          simp only [mergeSpecAux]
          rw [if_neg hadj]
          simp [renderRun_single]

/-! ### Malformed codes: synthetic `(0, 0)` keys -/

lemma parseEp_of_not_parseOk (c : String) (h : parseOk c = false) :
    parseEp c = (0, 0, c) := by
  unfold parseOk at h
  unfold parseEp
  cases hs : splitE c.data with
  | nil => rfl
  | cons p0 ps =>
    cases ps with
    | nil => rfl
    | cons p1 rest =>
      rw [hs] at h
      dsimp only at h ⊢
      cases h1 : pyInt (p0.drop 1) with
      | none => simp [h1]
      | some s =>
        cases h2 : pyInt p1 with
        | none => simp [h1, h2]
        | some e => rw [h1, h2] at h; simp at h

lemma mem_insertPy {α : Type} (lt : α → α → Bool) (x a : α) :
    ∀ l : List α, a ∈ insertPy lt x l ↔ a = x ∨ a ∈ l := by
  intro l
  induction l with
  | nil => simp [insertPy]
  | cons y t ih =>
    simp only [insertPy]
    by_cases hyx : lt y x
    · rw [if_pos hyx]
      simp only [List.mem_cons, ih]
      tauto
    · rw [if_neg hyx]
      simp only [List.mem_cons]

lemma mem_sortPy {α : Type} (lt : α → α → Bool) (a : α) :
    ∀ l : List α, a ∈ sortPy lt l ↔ a ∈ l := by
  intro l
  induction l with
  | nil => simp [sortPy]
  | cons x xs ih =>
    simp only [sortPy, mem_insertPy, ih, List.mem_cons]

lemma tripLt_zero_lt (z x : Int × Int × String) (hz : z.1 = 0 ∧ z.2.1 = 0)
    (hx1 : 0 ≤ x.1) (hx2 : x.1 = 0 → 0 ≤ x.2.1)
    (hxn : ¬(x.1 = 0 ∧ x.2.1 = 0)) : tripLt z x = true := by
  obtain ⟨hza, hzb⟩ := hz
  unfold tripLt
  rcases (by omega : x.1 = 0 ∨ 0 < x.1) with hx0 | hxpos
  · have hb : 0 ≤ x.2.1 := hx2 hx0
    have hbpos : 0 < x.2.1 := by
      rcases (by omega : x.2.1 = 0 ∨ 0 < x.2.1) with h | h
      · exact absurd ⟨hx0, h⟩ hxn
      · exact h
    rw [if_neg (by omega : ¬ z.1 < x.1), if_neg (by omega : ¬ x.1 < z.1),
      if_pos (by omega : z.2.1 < x.2.1)]
  · rw [if_pos (by omega : z.1 < x.1)]

lemma tripLt_to_zero (y x : Int × Int × String) (hx : x.1 = 0 ∧ x.2.1 = 0)
    (hy1 : 0 ≤ y.1) (hy2 : y.1 = 0 → 0 ≤ y.2.1)
    (h : tripLt y x = true) : y.1 = 0 ∧ y.2.1 = 0 := by
  obtain ⟨hxa, hxb⟩ := hx
  unfold tripLt at h
  rw [if_neg (by omega : ¬ y.1 < x.1)] at h
  by_cases h2 : x.1 < y.1
  · rw [if_pos h2] at h
    exact Bool.noConfusion h
  · rw [if_neg h2] at h
    have hy0 : y.1 = 0 := by omega
    have hyb : 0 ≤ y.2.1 := hy2 hy0
    rw [if_neg (by omega : ¬ y.2.1 < x.2.1)] at h
    by_cases h4 : x.2.1 < y.2.1
    · rw [if_pos h4] at h
      exact Bool.noConfusion h
    · exact ⟨hy0, by omega⟩

/-- If every parsed triple has a key at least `(0, 0)` and some triple has
key exactly `(0, 0)`, the sorted list starts with a `(0, 0)` triple. -/
lemma sortPy_head_zero :
    ∀ l : List (Int × Int × String),
      (∀ x ∈ l, 0 ≤ x.1 ∧ (x.1 = 0 → 0 ≤ x.2.1)) →
      (∃ x ∈ l, x.1 = 0 ∧ x.2.1 = 0) →
      ∃ m t, sortPy tripLt l = (0, 0, m) :: t := by
  intro l
  induction l with
  | nil => intro _ hex; simp at hex
  | cons x xs ih =>
    obtain ⟨x1, x2, x3⟩ := x
    intro hall hex
    simp only [sortPy]
    by_cases hx0 : x1 = 0 ∧ x2 = 0
    · obtain ⟨rfl, rfl⟩ := hx0
      cases hsort : sortPy tripLt xs with
      | nil => exact ⟨x3, [], rfl⟩
      | cons y t =>
        obtain ⟨y1, y2, y3⟩ := y
        have hy_mem : (y1, y2, y3) ∈ xs :=
          (mem_sortPy tripLt _ xs).mp (by rw [hsort]; exact List.mem_cons_self ..)
        have hy_all := hall (y1, y2, y3) (List.mem_cons_of_mem _ hy_mem)
        simp only [insertPy]
        by_cases hyx : tripLt (y1, y2, y3) (0, 0, x3) = true
        · rw [if_pos hyx]
          obtain ⟨hy0, hy1⟩ :=
            tripLt_to_zero (y1, y2, y3) (0, 0, x3) ⟨rfl, rfl⟩ hy_all.1 hy_all.2 hyx
          dsimp only at hy0 hy1
          subst hy0
          subst hy1
          exact ⟨y3, insertPy tripLt (0, 0, x3) t, rfl⟩
        · rw [if_neg hyx]
          exact ⟨x3, (y1, y2, y3) :: t, rfl⟩
    · obtain ⟨w, hw_mem, hw0⟩ := hex
      have hw_xs : w ∈ xs := by
        rcases List.mem_cons.mp hw_mem with rfl | hmem
        · exact absurd hw0 hx0
        · exact hmem
      obtain ⟨m, t, hmt⟩ := ih (fun z hz => hall z (List.mem_cons_of_mem _ hz)) ⟨w, hw_xs, hw0⟩
      rw [hmt]
      simp only [insertPy]
      have hx_all := hall (x1, x2, x3) (List.mem_cons_self ..)
      have hlt : tripLt (0, 0, m) (x1, x2, x3) = true :=
        tripLt_zero_lt (0, 0, m) (x1, x2, x3) ⟨rfl, rfl⟩ hx_all.1 hx_all.2 hx0
      rw [if_pos hlt]
      exact ⟨m, insertPy tripLt (x1, x2, x3) t, rfl⟩

/-- The first rendered token of the merge loop always describes the current
run: it is `renderRange season start b` for some final stop `b`. -/
lemma mergeGo_head :
    ∀ (l : List (Int × Int × String)) (season start stop : Int),
      ∃ b t, mergeGo season start stop l = renderRange season start b :: t := by
  intro l
  induction l with
  | nil => intro season start stop; exact ⟨stop, [], rfl⟩
  | cons x t ih =>
    intro season start stop
    obtain ⟨xs, xe, xstr⟩ := x
    by_cases hadj : xs = season ∧ xe = stop + 1
    · obtain ⟨b, t', ht⟩ := ih season start xe
      refine ⟨b, t', ?_⟩
      simp only [mergeGo]
      rw [if_pos hadj]
      exact ht
    · refine ⟨stop, mergeGo xs xe xe t, ?_⟩
      simp only [mergeGo]
      rw [if_neg hadj]

lemma string_append_empty (s : String) : s ++ "" = s := by
  cases s with
  | mk data => simp [String.instAppend, String.append]

lemma renderRange_zero (b : Int) :
    ∃ suffix, renderRange 0 0 b = "S00E00" ++ suffix := by
  by_cases hb : (0 : Int) = b
  · refine ⟨"", ?_⟩
    rw [string_append_empty, renderRange, if_pos hb]
    decide
  · refine ⟨"-E" ++ pad2 b, ?_⟩
    rw [renderRange, if_neg hb]
    have : "S" ++ pad2 0 ++ "E" ++ pad2 0 = "S00E00" := by decide
    rw [show "S" ++ pad2 0 ++ "E" ++ pad2 0 ++ "-E" ++ pad2 b =
        ("S" ++ pad2 0 ++ "E" ++ pad2 0) ++ ("-E" ++ pad2 b) from ?_, this]
    rw [String.append_assoc]

/-! ### Heads of message lines -/

lemma head_append (a b : String) (c : Char) (h : a.data.head? = some c) :
    (a ++ b).data.head? = some c := by
  rw [String.data_append, List.head?_append, h]
  rfl

lemma intercalate_go_head (s : String) (c : Char) :
    ∀ (t : List String) (acc : String), acc.data.head? = some c →
      (String.intercalate.go acc s t).data.head? = some c := by
  intro t
  induction t with
  | nil => intro acc h; exact h
  | cons a as ih =>
    intro acc h
    exact ih (acc ++ s ++ a) (head_append _ _ _ (head_append _ _ _ h))

lemma mem_ite_nil {c : Prop} [Decidable c] {l : List String} {p : String}
    (h : p ∈ (if c then l else [])) : p ∈ l := by
  by_cases hc : c
  · rwa [if_pos hc] at h
  · rw [if_neg hc] at h
    cases h

lemma aggLinks_head (fv : TemplateVars) :
    ∀ a ∈ aggLinks fv, a.data.head? = some '🔗' ∨ a.data.head? = some '🎬' ∨
      a.data.head? = some '🌟' := by
  intro a ha
  unfold aggLinks at ha
  rcases List.mem_append.mp ha with h | h
  · rcases List.mem_append.mp h with h2 | h2
    · have := mem_ite_nil h2
      simp only [List.mem_singleton] at this
      subst this
      exact Or.inl (head_append _ _ _ (head_append _ _ _ (by decide)))
    · split at h2
      · simp only [List.mem_singleton] at h2
        subst h2
        exact Or.inr (Or.inl (head_append _ _ _ (head_append _ _ _ (by decide))))
      · split at h2
        · simp only [List.mem_singleton] at h2
          subst h2
          exact Or.inr (Or.inl (head_append _ _ _ (head_append _ _ _ (by decide))))
        · split at h2
          · simp only [List.mem_singleton] at h2
            subst h2
            exact Or.inr (Or.inl (head_append _ _ _ (head_append _ _ _ (by decide))))
          · cases h2
  · have := mem_ite_nil h
    simp only [List.mem_singleton] at this
    subst this
    exact Or.inr (Or.inr (head_append _ _ _ (head_append _ _ _ (by decide))))


/-! ### Rational computations for size aggregation -/

lemma ratFloor_eq (q : ℚ) (n : Int) (h1 : (n : ℚ) ≤ q) (h2 : q < n + 1) :
    Rat.floor q = n := by
  have hle : n ≤ Rat.floor q := Rat.le_floor.mpr h1
  have hlt : Rat.floor q < n + 1 := by
    by_contra hcon
    push_neg at hcon
    have : ((n + 1 : Int) : ℚ) ≤ q := Rat.le_floor.mp hcon
    push_cast at this
    linarith
  omega

lemma sc_150GB : sizeContribution (some "1.50 GB") = 1610612736 := by
  rw [show sizeContribution (some "1.50 GB") =
      (((1 : Nat) : ℚ) + ((50 : Nat) : ℚ) / 10 ^ (2 : Nat)) * 1024 * 1024 * 1024 from rfl]
  norm_num

lemma sc_500MB : sizeContribution (some "500.00 MB") = 524288000 := by
  rw [show sizeContribution (some "500.00 MB") =
      (((500 : Nat) : ℚ) + ((0 : Nat) : ℚ) / 10 ^ (2 : Nat)) * 1024 * 1024 from rfl]
  norm_num

lemma aggSize_example :
    aggregatedSizeQ [some "1.50 GB", some "500.00 MB"] = 2134900736 := by
  show 0 + sizeContribution (some "1.50 GB") + sizeContribution (some "500.00 MB") =
    2134900736
  rw [sc_150GB, sc_500MB]
  norm_num

lemma trunc_sum_example : pyIntTrunc (2134900736 : ℚ) = 2134900736 := by
  unfold pyIntTrunc
  rw [if_neg (by norm_num)]
  exact ratFloor_eq _ 2134900736 (by norm_num) (by norm_num)

lemma fsLoop_sum_example :
    fsLoop 4 (2134900736 : ℚ) 0 = ((2134900736 : ℚ) / 1024 / 1024 / 1024, 3) := by
  have e1 : fsLoop 4 (2134900736 : ℚ) 0 = fsLoop 3 ((2134900736 : ℚ) / 1024) 1 := by
    show (if (1024 : ℚ) ≤ 2134900736 ∧ (0 : Nat) < 4 then
        fsLoop 3 ((2134900736 : ℚ) / 1024) 1 else ((2134900736 : ℚ), 0)) = _
    rw [if_pos ⟨by norm_num, by norm_num⟩]
  have e2 : fsLoop 3 ((2134900736 : ℚ) / 1024) 1 =
      fsLoop 2 ((2134900736 : ℚ) / 1024 / 1024) 2 := by
    show (if (1024 : ℚ) ≤ 2134900736 / 1024 ∧ (1 : Nat) < 4 then
        fsLoop 2 ((2134900736 : ℚ) / 1024 / 1024) 2
      else ((2134900736 : ℚ) / 1024, 1)) = _
    rw [if_pos ⟨by norm_num, by norm_num⟩]
  have e3 : fsLoop 2 ((2134900736 : ℚ) / 1024 / 1024) 2 =
      fsLoop 1 ((2134900736 : ℚ) / 1024 / 1024 / 1024) 3 := by
    show (if (1024 : ℚ) ≤ 2134900736 / 1024 / 1024 ∧ (2 : Nat) < 4 then
        fsLoop 1 ((2134900736 : ℚ) / 1024 / 1024 / 1024) 3
      else ((2134900736 : ℚ) / 1024 / 1024, 2)) = _
    rw [if_pos ⟨by norm_num, by norm_num⟩]
  have e4 : fsLoop 1 ((2134900736 : ℚ) / 1024 / 1024 / 1024) 3 =
      ((2134900736 : ℚ) / 1024 / 1024 / 1024, 3) := by
    show (if (1024 : ℚ) ≤ 2134900736 / 1024 / 1024 / 1024 ∧ (3 : Nat) < 4 then
        fsLoop 0 ((2134900736 : ℚ) / 1024 / 1024 / 1024 / 1024) 4
      else ((2134900736 : ℚ) / 1024 / 1024 / 1024, 3)) = _
    rw [if_neg (by rintro ⟨hA, -⟩; norm_num at hA)]
  rw [e1, e2, e3, e4]

lemma round_sum_example :
    roundHalfEven ((2134900736 : ℚ) / 1024 / 1024 / 1024 * 100) = 199 := by
  have hfl : Rat.floor ((2134900736 : ℚ) / 1024 / 1024 / 1024 * 100) = 198 :=
    ratFloor_eq _ 198 (by norm_num) (by norm_num)
  simp only [roundHalfEven]
  rw [hfl]
  rw [if_neg (by push_cast; norm_num), if_pos (by push_cast; norm_num)]
  norm_num

lemma fmt2_sum_example :
    fmt2 ((2134900736 : ℚ) / 1024 / 1024 / 1024) = "1.99" := by
  simp only [fmt2]
  rw [round_sum_example]
  decide

lemma format_size_sum_example : format_size 2134900736 = "1.99 GB" := by
  unfold format_size
  rw [if_neg (by decide : ¬ (2134900736 : Int) = 0)]
  rw [show ((2134900736 : Int) : ℚ) = (2134900736 : ℚ) from by norm_num]
  rw [fsLoop_sum_example]
  show fmt2 ((2134900736 : ℚ) / 1024 / 1024 / 1024) ++ " " ++ sizeNames.getD 3 "TB" = _
  rw [fmt2_sum_example]
  decide

lemma sizeContribution_zero_of_not_parses (s : String)
    (h : parsesAsSize s = false) : sizeContribution (some s) = 0 := by
  unfold parsesAsSize at h
  show (if s = "" then (0 : ℚ) else _) = 0
  by_cases hs : s = ""
  · rw [if_pos hs]
  · rw [if_neg hs]
    cases hsp : pySplitWs s with
    | nil => rfl
    | cons v rest =>
      cases rest with
      | nil => rfl
      | cons u rest2 =>
        cases rest2 with
        | nil =>
          rw [hsp] at h
          dsimp only at h ⊢
          cases hf : pyFloat v.data with
          | none => rfl
          | some x => rw [hf] at h; cases h
        | cons w rest3 => rfl

/-! ### Claim C5: size aggregation -/

/-- C5 counterexample: the batch with sizes `"1.50 GB"` and `"500.00 MB"`
does **not** sum to `1500*1024*1024 + 500*1024*1024` bytes as the claim
states: `1.50 GB` converts to `1.50*1024³ = 1536*1024²` bytes, not
`1500*1024²`. -/
theorem size_sum_counterexample :
    ¬ aggregatedSizeQ [some "1.50 GB", some "500.00 MB"] =
        1500 * 1024 * 1024 + 500 * 1024 * 1024 := by
  rw [aggSize_example]
  norm_num

/-- C5 (amended): aggregated size is computed by parsing each notification's
`"<number> <unit>"` size string with 1024-based conversion for GB/MB/KB and
summing to bytes, then re-formatting the truncated sum with the shared
`format_size` formatter; unparseable entries contribute exactly 0.  In
particular `"1.50 GB"` and `"500.00 MB"` sum to `1.50*1024³ + 500*1024²
= 2134900736` bytes (not `1500*1024² + 500*1024²`), which reformats to
`"1.99 GB"`. -/
theorem size_aggregation_amended :
    aggregatedSizeQ [some "1.50 GB", some "500.00 MB"] =
      (3 / 2) * 1024 * 1024 * 1024 + 500 * 1024 * 1024 ∧
    format_size (pyIntTrunc
      (aggregatedSizeQ [some "1.50 GB", some "500.00 MB"])) = "1.99 GB" ∧
    (∀ s : String, parsesAsSize s = false → sizeContribution (some s) = 0) ∧
    sizeContribution none = 0 := by
  refine ⟨by rw [aggSize_example]; norm_num, ?_, sizeContribution_zero_of_not_parses, rfl⟩
  rw [aggSize_example, trunc_sum_example, format_size_sum_example]

/-- Witness for C5: the quantified conjunct discharged at the concrete
unparseable entry `"unknown"`. -/
theorem size_aggregation_amended_witness :
    parsesAsSize "unknown" = false ∧ sizeContribution (some "unknown") = 0 :=
  ⟨by decide, size_aggregation_amended.2.2.1 "unknown" (by decide)⟩

/-! ### Claim C10: file-count line and total-size line -/

/-- C10: in an aggregated message the file-count line always appears and
reports the number of notifications in the batch, and when the parsed size
sum is zero no line of the body begins with the total-size marker `💾`. -/
theorem aggregated_message_lines (notifs : List Notif) (h : notifs ≠ []) :
    ("📂 文件：" ++ toString notifs.length ++ " 个") ∈ aggregatedParts notifs ∧
    (aggregatedSizeQ (notifs.map fun n => n.vars.totalSize) = 0 →
      ∀ p ∈ aggregatedParts notifs, p.data.head? ≠ some '💾') := by
  cases notifs with
  | nil => exact absurd rfl h
  | cons first rest =>
    constructor
    · simp [aggregatedParts]
    · intro hz p hp
      have hts : totalSizeStr (first :: rest) = none := by
        simp only [totalSizeStr]
        rw [hz, if_neg (by norm_num)]
      simp only [aggregatedParts] at hp
      rw [hts] at hp
      rcases List.mem_append.mp hp with hp | hp
      rotate_left
      · -- links block
        by_cases hl : aggLinks first.vars ≠ []
        · rw [if_pos hl] at hp
          rcases List.mem_cons.mp hp with rfl | hp
          · decide
          · rw [List.mem_singleton] at hp
            subst hp
            cases hlk : aggLinks first.vars with
            | nil => exact absurd hlk hl
            | cons a t =>
              show (String.intercalate.go a " | " t).data.head? ≠ some '💾'
              rcases aggLinks_head first.vars a (by rw [hlk]; exact List.mem_cons_self ..)
                with ha | ha | ha
              all_goals rw [intercalate_go_head " | " _ t a ha]
              all_goals decide
        · rw [if_neg hl] at hp
          cases hp
      rcases List.mem_append.mp hp with hp | hp
      rotate_left
      · -- overview block
        have := mem_ite_nil hp
        rw [List.mem_singleton] at this
        subst this
        rw [head_append _ _ '\n' (by decide)]
        decide
      rcases List.mem_append.mp hp with hp | hp
      rotate_left
      · -- tmdb id block
        have := mem_ite_nil hp
        rw [List.mem_singleton] at this
        subst this
        rw [head_append _ _ '🍿' (by decide)]
        decide
      rcases List.mem_append.mp hp with hp | hp
      rotate_left
      · -- size block: empty after the sum-is-zero rewrite
        cases hp
      rcases List.mem_append.mp hp with hp | hp
      rotate_left
      · -- file-count line
        rw [List.mem_singleton] at hp
        subst hp
        rw [head_append _ _ '📂' (head_append _ _ '📂' (by decide))]
        decide
      rcases List.mem_append.mp hp with hp | hp
      rotate_left
      · -- quality line
        unfold qualityLine at hp
        have := mem_ite_nil hp
        rw [List.mem_singleton] at this
        subst this
        rw [head_append _ _ '🖼' (by decide)]
        decide
      rcases List.mem_append.mp hp with hp | hp
      rotate_left
      · -- category line
        have := mem_ite_nil hp
        rw [List.mem_singleton] at this
        subst this
        rw [head_append _ _ '🏷' (by decide)]
        decide
      rcases List.mem_append.mp hp with hp | hp
      rotate_left
      · -- media-type line
        rw [List.mem_singleton] at hp
        subst hp
        decide
      rcases List.mem_append.mp hp with hp | hp
      · -- library line
        rw [List.mem_singleton] at hp
        subst hp
        decide
      · -- rating line
        have := mem_ite_nil hp
        rw [List.mem_singleton] at this
        subst this
        rw [head_append _ _ '⭐' (head_append _ _ '⭐' (by decide))]
        decide

/-- Witness for C10 at a concrete two-notification batch with no parseable
sizes. -/
theorem aggregated_message_lines_witness :
    (("📂 文件：" ++ toString ([{ vars := {}, items := [] },
        { vars := {}, items := [] }] : List Notif).length ++ " 个") ∈
      aggregatedParts [{ vars := {}, items := [] }, { vars := {}, items := [] }]) ∧
    (∀ p ∈ aggregatedParts
        ([{ vars := {}, items := [] }, { vars := {}, items := [] }] : List Notif),
      p.data.head? ≠ some '💾') := by
  have h := aggregated_message_lines
    [{ vars := {}, items := [] }, { vars := {}, items := [] }] (by decide)
  exact ⟨h.1, h.2 (by show (0 : ℚ) + 0 + 0 = 0; norm_num)⟩

/-! ### Claim C3: range compression -/

/-- C3: range compression groups the sorted parsed codes into the spec's
maximal runs of consecutive episodes within one season (proved as a
refinement against the spec-worded `specRuns`/`renderRun`), and on the
claim's concrete inputs produces `"S01E01-E03, S01E05"` and `"S02E01"`. -/
theorem range_compression_correct :
    (∀ episodes : List String,
      mergeEpisodeRanges episodes =
        (specRuns (sortPy tripLt (episodes.map parseEp))).map renderRun) ∧
    episodeRangeString ["S01E01", "S01E02", "S01E03", "S01E05"] =
      "S01E01-E03, S01E05" ∧
    episodeRangeString ["S02E01"] = "S02E01" :=
  ⟨mergeEpisodeRanges_eq_specRuns, by decide, by decide⟩

/-! ### Claim C4: malformed codes -/

/-- C4 counterexample: a malformed code is **not** kept as a standalone
token.  `["S01E01", "foo"]` produces `["S00E00", "S01E01"]` — the malformed
`"foo"` is replaced by the synthetic `"S00E00"` and does not appear in the
output; moreover the synthetic run is not unmergeable: with `"S00E01"`
present it merges into `"S00E00-E01"`. -/
theorem malformed_code_counterexample :
    mergeEpisodeRanges ["S01E01", "foo"] = ["S00E00", "S01E01"] ∧
    "foo" ∉ mergeEpisodeRanges ["S01E01", "foo"] ∧
    mergeEpisodeRanges ["S00E01", "foo"] = ["S00E00-E01"] := by decide

/-- C4 (amended): a code that fails to parse is mapped to the synthetic
triple `(0, 0, code)` rather than being dropped, and (when every parsed key
is at least `(0, 0)`) the produced ranges start with a token rendered from
the synthetic numbers — beginning with `"S00E00"` — in place of the
malformed code; the malformed text itself is not kept, and the synthetic run
can merge with season-0 codes. -/
theorem malformed_code_synthetic_run (episodes : List String)
    (hkeys : ∀ c ∈ episodes,
      0 ≤ (parseEp c).1 ∧ ((parseEp c).1 = 0 → 0 ≤ (parseEp c).2.1))
    (hbad : ∃ c ∈ episodes, parseOk c = false) :
    (∀ c : String, parseOk c = false → parseEp c = (0, 0, c)) ∧
    ∃ suffix rest, mergeEpisodeRanges episodes = ("S00E00" ++ suffix) :: rest := by
  refine ⟨parseEp_of_not_parseOk, ?_⟩
  have hall : ∀ x ∈ episodes.map parseEp, 0 ≤ x.1 ∧ (x.1 = 0 → 0 ≤ x.2.1) := by
    intro x hx
    obtain ⟨c, hc, rfl⟩ := List.mem_map.mp hx
    exact hkeys c hc
  have hex : ∃ x ∈ episodes.map parseEp, x.1 = 0 ∧ x.2.1 = 0 := by
    obtain ⟨c, hc, hbadc⟩ := hbad
    refine ⟨parseEp c, List.mem_map_of_mem _ hc, ?_⟩
    rw [parseEp_of_not_parseOk c hbadc]
    exact ⟨rfl, rfl⟩
  obtain ⟨m, t, hsort⟩ := sortPy_head_zero (episodes.map parseEp) hall hex
  unfold mergeEpisodeRanges
  rw [hsort]
  dsimp only
  obtain ⟨b, t2, hgo⟩ := mergeGo_head t 0 0 0
  rw [hgo]
  obtain ⟨suffix, hsuf⟩ := renderRange_zero b
  exact ⟨suffix, t2, by rw [hsuf]⟩

/-- Witness for C4 (amended), at the concrete input `["S01E01", "foo"]`. -/
theorem malformed_code_synthetic_run_witness :
    (∀ c : String, parseOk c = false → parseEp c = (0, 0, c)) ∧
    ∃ suffix rest,
      mergeEpisodeRanges ["S01E01", "foo"] = ("S00E00" ++ suffix) :: rest :=
  malformed_code_synthetic_run ["S01E01", "foo"] (by decide) (by decide)

/-! ### Claim C6: debounce timer semantics -/

lemma runSubs_debounce (delay : Nat) :
    ∀ (rest : List Nat) (cur : Nat) (acc : List Nat),
      List.Chain (fun a b => a ≤ b ∧ b - a < delay) cur rest →
      List.foldl (stepSub delay) (some (cur + delay), acc) rest =
        (some (rest.getLastD cur + delay), acc) := by
  intro rest
  induction rest with
  | nil => intro cur acc _; rfl
  | cons t2 rest2 ih =>
    intro cur acc hchain
    cases hchain with
    | cons hc hchain2 =>
      obtain ⟨hc1, hc2⟩ := hc
      have hlt : ¬ (cur + delay ≤ t2) := by omega
      have hstep : stepSub delay (some (cur + delay), acc) t2 =
          (some (t2 + delay), acc) := by
        simp [stepSub, hlt]
      show List.foldl (stepSub delay) (stepSub delay (some (cur + delay), acc) t2)
          rest2 = _
      rw [hstep, ih t2 acc hchain2, List.getLastD_cons]

/-- C6: each submission to an existing batch restarts the flush window.
After submissions at times `t0 :: rest` (ascending, consecutive gaps shorter
than the delay), the scheduled timer is always the most recent submission
time plus the delay, and exactly one flush occurs, at the last submission
time plus the delay. -/
theorem debounce_restart (delay t0 : Nat) (rest : List Nat)
    (hchain : List.Chain (fun a b => a ≤ b ∧ b - a < delay) t0 rest) :
    runSubs delay (t0 :: rest) = (some (rest.getLastD t0 + delay), []) ∧
    flushTimes delay (t0 :: rest) = [rest.getLastD t0 + delay] := by
  have hrun : runSubs delay (t0 :: rest) = (some (rest.getLastD t0 + delay), []) := by
    show List.foldl (stepSub delay) (stepSub delay (none, []) t0) rest = _
    rw [show stepSub delay (none, []) t0 = (some (t0 + delay), []) from rfl]
    exact runSubs_debounce delay rest t0 [] hchain
  refine ⟨hrun, ?_⟩
  unfold flushTimes
  rw [hrun]
  rfl

/-- Witness for C6: three submissions at times 0, 3, 5 with delay 10 produce
exactly one flush, at time 15. -/
theorem debounce_restart_witness :
    runSubs 10 [0, 3, 5] = (some 15, []) ∧ flushTimes 10 [0, 3, 5] = [15] :=
  debounce_restart 10 0 [3, 5]
    (List.Chain.cons (by omega) (List.Chain.cons (by omega) List.Chain.nil))

/-! ### Claim C2: `flush_all` and the non-reentrant lock -/

/-- C2 (the code contradicts the claim): whenever at least one batch is
pending, `flush_all` never returns — it holds the non-reentrant lock and
synchronously calls `_send_aggregated_notification`, whose own
`with self.lock:` then blocks forever.  Only with no pending batch does
`flush_all` return, having sent nothing. -/
theorem flush_all_deadlocks :
    (∀ (render : TemplateVars → String × String) (st : AggState),
      st.pending ≠ [] → flushAll render st = none) ∧
    (∀ (render : TemplateVars → String × String) (st : AggState),
      st.pending = [] → flushAll render st = some (st, [])) := by
  constructor
  · intro render st h
    unfold flushAll
    cases hp : st.pending with
    | nil => exact absurd hp h
    | cons kv t => rfl
  · intro render st h
    unfold flushAll
    rw [h]
    rfl

/-- Witness for C2's theorem: a state with one pending single-notification
batch deadlocks `flush_all`. -/
theorem flush_all_deadlocks_witness :
    flushAll (fun v => (v.titleYear, ""))
      { pending := [("1_3", [{ vars := {}, items := [] }])],
        timers := [("1_3", 10)], now := 0, delay := 10 } = none :=
  flush_all_deadlocks.1 _ _ (List.cons_ne_nil _ _)

/-! ### Claim C9: lexicographic vs numeric episode-code order -/

lemma insertPy_map {α β : Type} (lt1 : β → β → Bool) (lt2 : α → α → Bool)
    (f : α → β) (x : α) :
    ∀ m : List α, (∀ y ∈ m, lt1 (f y) (f x) = lt2 y x) →
      insertPy lt1 (f x) (m.map f) = (insertPy lt2 x m).map f := by
  intro m
  induction m with
  | nil => intro _; rfl
  | cons y t ih =>
    intro h
    simp only [List.map_cons, insertPy]
    rw [h y (List.mem_cons_self ..)]
    by_cases hyx : lt2 y x
    · rw [if_pos hyx, if_pos hyx, ih (fun z hz => h z (List.mem_cons_of_mem _ hz))]
      rfl
    · rw [if_neg hyx, if_neg hyx]
      rfl

lemma sortPy_map {α β : Type} (lt1 : β → β → Bool) (lt2 : α → α → Bool)
    (f : α → β) :
    ∀ l : List α, (∀ a ∈ l, ∀ b ∈ l, lt1 (f a) (f b) = lt2 a b) →
      sortPy lt1 (l.map f) = (sortPy lt2 l).map f := by
  intro l
  induction l with
  | nil => intro _; rfl
  | cons x xs ih =>
    intro h
    simp only [List.map_cons, sortPy]
    rw [ih (fun a ha b hb => h a (List.mem_cons_of_mem _ ha) b (List.mem_cons_of_mem _ hb))]
    exact insertPy_map lt1 lt2 f x (sortPy lt2 xs) (fun y hy =>
      h y (List.mem_cons_of_mem _ ((mem_sortPy lt2 y xs).mp hy)) x (List.mem_cons_self ..))

lemma strLtB_append :
    ∀ (xs ys : List Char) (r1 r2 : List Char), xs.length = ys.length →
      strLtB (xs ++ r1) (ys ++ r2) =
        (if strLtB xs ys then true
         else if strLtB ys xs then false
         else strLtB r1 r2) := by
  intro xs
  induction xs with
  | nil =>
    intro ys r1 r2 hlen
    cases ys with
    | nil => simp [strLtB]
    | cons b t => simp at hlen
  | cons a s ih =>
    intro ys r1 r2 hlen
    cases ys with
    | nil => simp at hlen
    | cons b t =>
      simp only [List.length_cons, Nat.succ.injEq] at hlen
      simp only [List.cons_append, strLtB]
      by_cases h1 : a.val.toNat < b.val.toNat
      · simp [h1, show ¬ b.val.toNat < a.val.toNat from by omega]
      · by_cases h2 : b.val.toNat < a.val.toNat
        · simp [h1, h2]
        · simp [h1, h2, ih t r1 r2 hlen]

lemma pyFormat02_len : ∀ n < 100, (pyFormat02 n).data.length = 2 := by decide

set_option maxRecDepth 40000 in
lemma strLtB_pyFormat02 :
    ∀ a < 100, ∀ c < 100,
      strLtB (pyFormat02 a).data (pyFormat02 c).data = decide (a < c) := by decide

lemma extractor_data (s e : Nat) :
    (extractorCode s e).data =
      'S' :: ((pyFormat02 s).data ++ ('E' :: (pyFormat02 e).data)) := by
  unfold extractorCode
  rw [String.data_append, String.data_append, String.data_append]
  rw [show "S".data = ['S'] from rfl, show "E".data = ['E'] from rfl]
  simp

lemma strLt_extractor (p q : Nat × Nat)
    (hp1 : p.1 ≤ 99) (hp2 : p.2 ≤ 99) (hq1 : q.1 ≤ 99) (hq2 : q.2 ≤ 99) :
    pyStrLt (extractorCode p.1 p.2) (extractorCode q.1 q.2) = pairLt p q := by
  unfold pyStrLt
  rw [extractor_data, extractor_data]
  simp only [strLtB]
  rw [if_neg (by omega), if_neg (by omega)]
  rw [strLtB_append (pyFormat02 p.1).data (pyFormat02 q.1).data _ _
    (by rw [pyFormat02_len p.1 (by omega), pyFormat02_len q.1 (by omega)])]
  rw [strLtB_pyFormat02 p.1 (by omega) q.1 (by omega),
    strLtB_pyFormat02 q.1 (by omega) p.1 (by omega)]
  have hinner : strLtB ('E' :: (pyFormat02 p.2).data) ('E' :: (pyFormat02 q.2).data) =
      decide (p.2 < q.2) := by
    simp only [strLtB]
    rw [if_neg (by omega), if_neg (by omega)]
    exact strLtB_pyFormat02 p.2 (by omega) q.2 (by omega)
  rw [hinner]
  unfold pairLt
  by_cases h1 : p.1 < q.1
  · rw [if_pos h1]
    simp [h1]
  · rw [if_neg h1]
    by_cases h2 : q.1 < p.1
    · rw [if_pos h2]
      simp [h2, show ¬ p.1 < q.1 from h1]
    · rw [if_neg h2]
      simp [show ¬ p.1 < q.1 from h1, show ¬ q.1 < p.1 from h2]

set_option maxRecDepth 10000 in
lemma pyInt_pyFormat02 : ∀ n < 100, pyInt (pyFormat02 n).data = some (n : Int) := by
  decide

set_option maxRecDepth 10000 in
lemma noE_pyFormat02 : ∀ n < 100, 'E' ∉ (pyFormat02 n).data := by decide

lemma splitE_ne_nil : ∀ l : List Char, splitE l ≠ [] := by
  intro l
  cases l with
  | nil => simp [splitE]
  | cons c t =>
    simp only [splitE]
    cases splitE t with
    | nil => simp
    | cons h r =>
      dsimp only
      split <;> simp

lemma splitE_noE : ∀ l : List Char, 'E' ∉ l → splitE l = [l] := by
  intro l
  induction l with
  | nil => intro _; rfl
  | cons c t ih =>
    intro h
    have hc : ¬ c = 'E' := fun hc => h (hc ▸ List.mem_cons_self ..)
    have ht : 'E' ∉ t := fun hm => h (List.mem_cons_of_mem _ hm)
    simp only [splitE, ih ht]
    rw [if_neg hc]

lemma splitE_append :
    ∀ (l1 l2 : List Char), 'E' ∉ l1 → splitE (l1 ++ 'E' :: l2) = l1 :: splitE l2 := by
  intro l1
  induction l1 with
  | nil =>
    intro l2 _
    simp only [List.nil_append, splitE]
    cases hs : splitE l2 with
    | nil => exact absurd hs (splitE_ne_nil l2)
    | cons h r => rfl
  | cons c t ih =>
    intro l2 hE
    have hc : ¬ c = 'E' := fun hc => hE (hc ▸ List.mem_cons_self ..)
    have ht : 'E' ∉ t := fun hm => hE (List.mem_cons_of_mem _ hm)
    simp only [List.cons_append, splitE, List.append_eq, ih l2 ht]
    rw [if_neg hc]

lemma parse_extractor : ∀ s < 100, ∀ e < 100,
    parseEp (extractorCode s e) = ((s : Int), (e : Int), extractorCode s e) := by
  intro s hs e he
  unfold parseEp
  rw [extractor_data]
  have hsplit : splitE ('S' :: ((pyFormat02 s).data ++ 'E' :: (pyFormat02 e).data)) =
      ('S' :: (pyFormat02 s).data) :: [(pyFormat02 e).data] := by
    rw [show ('S' :: ((pyFormat02 s).data ++ 'E' :: (pyFormat02 e).data)) =
        (('S' :: (pyFormat02 s).data) ++ 'E' :: (pyFormat02 e).data) from rfl]
    rw [splitE_append _ _ (by
      intro hmem
      rcases List.mem_cons.mp hmem with h | h
      · exact absurd h (by decide)
      · exact noE_pyFormat02 s hs h)]
    rw [splitE_noE _ (noE_pyFormat02 e he)]
  rw [hsplit]
  dsimp only
  rw [show ('S' :: (pyFormat02 s).data).drop 1 = (pyFormat02 s).data from rfl]
  rw [pyInt_pyFormat02 s hs, pyInt_pyFormat02 e he]

/-- C9 counterexample: in the extractor's canonical form, episode numbers of
100 or more break the equivalence — `"S01E100"` sorts lexicographically
before `"S01E99"`, while the parsed pairs order the other way. -/
theorem lex_order_counterexample :
    extractorCode 1 99 = "S01E99" ∧ extractorCode 1 100 = "S01E100" ∧
    sortPy pyStrLt [extractorCode 1 99, extractorCode 1 100] =
      ["S01E100", "S01E99"] ∧
    sortPy pairLt [(1, 99), (1, 100)] = [(1, 99), (1, 100)] ∧
    sortPy pyStrLt [extractorCode 1 99, extractorCode 1 100] ≠
      (sortPy pairLt [(1, 99), (1, 100)]).map (fun p => extractorCode p.1 p.2) := by
  decide

/-- C9 (amended): for episode codes in the extractor's canonical zero-padded
form with both season and episode at most 99 (so each field is exactly two
digits), sorting the code strings lexicographically yields the same order as
sorting the `(season, episode)` pairs numerically, and parsing a canonical
code recovers its pair. -/
theorem lex_order_amended (pairs : List (Nat × Nat))
    (hb : ∀ p ∈ pairs, p.1 ≤ 99 ∧ p.2 ≤ 99) :
    sortPy pyStrLt (pairs.map fun p => extractorCode p.1 p.2) =
      (sortPy pairLt pairs).map (fun p => extractorCode p.1 p.2) ∧
    ∀ p ∈ pairs, parseEp (extractorCode p.1 p.2) =
      ((p.1 : Int), (p.2 : Int), extractorCode p.1 p.2) := by
  constructor
  · refine sortPy_map pyStrLt pairLt _ pairs ?_
    intro a ha b hbm
    obtain ⟨ha1, ha2⟩ := hb a ha
    obtain ⟨hb1, hb2⟩ := hb b hbm
    exact strLt_extractor a b ha1 ha2 hb1 hb2
  · intro p hp
    obtain ⟨h1, h2⟩ := hb p hp
    exact parse_extractor p.1 (by omega) p.2 (by omega)

/-- Witness for C9 (amended) at the concrete pair list
`[(1, 5), (1, 2), (2, 1)]`. -/
theorem lex_order_amended_witness :
    sortPy pyStrLt ([(1, 5), (1, 2), (2, 1)].map
        fun p : Nat × Nat => extractorCode p.1 p.2) =
      (sortPy pairLt [(1, 5), (1, 2), (2, 1)]).map
        (fun p => extractorCode p.1 p.2) ∧
    ∀ p ∈ ([(1, 5), (1, 2), (2, 1)] : List (Nat × Nat)),
      parseEp (extractorCode p.1 p.2) =
        ((p.1 : Int), (p.2 : Int), extractorCode p.1 p.2) :=
  lex_order_amended [(1, 5), (1, 2), (2, 1)] (by decide)

/-! ### Substring occurrence facts for log messages -/

lemma startsSeq_self_append : ∀ (n rest : List Char), startsSeq n (n ++ rest) = true := by
  intro n
  induction n with
  | nil => intro rest; rfl
  | cons a s ih =>
    intro rest
    rw [List.cons_append]
    show (a == a && startsSeq s (s ++ rest)) = true
    rw [ih rest]
    simp

lemma containsSeq_pre_self : ∀ (pre n suf : List Char),
    containsSeq n (pre ++ (n ++ suf)) = true := by
  intro pre
  induction pre with
  | nil =>
    intro n suf
    rw [List.nil_append]
    cases hns : n ++ suf with
    | nil =>
      have hn : n = [] := by
        cases n with
        | nil => rfl
        | cons a t => simp at hns
      subst hn
      rfl
    | cons c t =>
      rw [show containsSeq n (c :: t) =
        (startsSeq n (c :: t) || containsSeq n t) from rfl]
      rw [← hns, startsSeq_self_append]
      rfl
  | cons p pre2 ih =>
    intro n suf
    rw [List.cons_append]
    rw [show containsSeq n (p :: (pre2 ++ (n ++ suf))) =
      (startsSeq n (p :: (pre2 ++ (n ++ suf))) || containsSeq n (pre2 ++ (n ++ suf)))
      from rfl]
    rw [ih n suf]
    simp

lemma pyIn_here (pre key suf : String) : pyIn key (pre ++ key ++ suf) = true := by
  unfold pyIn
  rw [String.data_append, String.data_append, List.append_assoc]
  exact containsSeq_pre_self pre.data key.data suf.data

lemma pyIn_pre (pre key : String) : pyIn key (pre ++ key) = true := by
  unfold pyIn
  rw [String.data_append]
  have h := containsSeq_pre_self pre.data key.data []
  rwa [List.append_nil] at h

lemma startsSeq_extend : ∀ (n h t : List Char),
    startsSeq n h = true → startsSeq n (h ++ t) = true := by
  intro n
  induction n with
  | nil => intro h t _; rfl
  | cons a s ih =>
    intro h t hs
    cases h with
    | nil => cases hs
    | cons b u =>
      simp only [startsSeq, Bool.and_eq_true] at hs
      simp only [List.cons_append, startsSeq, Bool.and_eq_true]
      exact ⟨hs.1, ih u t hs.2⟩

lemma containsSeq_extend : ∀ (h : List Char) (n t : List Char),
    containsSeq n h = true → containsSeq n (h ++ t) = true := by
  intro h
  induction h with
  | nil =>
    intro n t hc
    have hn : n = [] := by
      cases n with
      | nil => rfl
      | cons a s => cases hc
    subst hn
    cases t with
    | nil => rfl
    | cons c u => rfl
  | cons c u ih =>
    intro n t hc
    rw [show containsSeq n (c :: u) = (startsSeq n (c :: u) || containsSeq n u)
      from rfl] at hc
    rw [List.cons_append,
      show containsSeq n (c :: (u ++ t)) =
        (startsSeq n (c :: (u ++ t)) || containsSeq n (u ++ t)) from rfl]
    rcases Bool.or_eq_true_iff.mp hc with hs | hcc
    · rw [show (c :: (u ++ t)) = ((c :: u) ++ t) from rfl, startsSeq_extend n (c :: u) t hs]
      rfl
    · rw [ih n t hcc]
      simp

lemma pyIn_extend (key s t : String) (h : pyIn key s = true) :
    pyIn key (s ++ t) = true := by
  unfold pyIn at h ⊢
  rw [String.data_append]
  exact containsSeq_extend s.data key.data t.data h

/-! ### Claim C7: inconsistency fallback -/

lemma validateLoop_mismatch (expS expT : Option String) (key : String) :
    ∀ rest : List Notif, (∀ n ∈ rest, n.items ≠ []) →
      (∃ n ∈ rest, ∃ ni : Item, n.items.head? = some ni ∧
        (ni.seriesId ≠ expS ∨ ni.seasonId ≠ expT)) →
      (validateLoop expS expT key rest).1 = false ∧
      ∃ log ∈ (validateLoop expS expT key rest).2,
        log.1 = LogLevel.error ∧ pyIn key log.2 = true := by
  intro rest
  induction rest with
  | nil => intro _ hex; simp at hex
  | cons n t ih =>
    intro hne hex
    cases hitems : n.items with
    | nil => exact absurd hitems (hne n (List.mem_cons_self ..))
    | cons ni rest2 =>
      simp only [validateLoop]
      rw [hitems]
      dsimp only
      by_cases hmatch : ni.seriesId = expS ∧ ni.seasonId = expT
      · rw [if_pos hmatch]
        apply ih (fun m hm => hne m (List.mem_cons_of_mem _ hm))
        obtain ⟨w, hw, wi, hwi, hwne⟩ := hex
        rcases List.mem_cons.mp hw with rfl | hmem
        · exfalso
          rw [hitems] at hwi
          simp only [List.head?_cons, Option.some.injEq] at hwi
          subst hwi
          rcases hwne with h | h
          · exact h hmatch.1
          · exact h hmatch.2
        · exact ⟨w, hmem, wi, hwi, hwne⟩
      · rw [if_neg hmatch]
        refine ⟨rfl, _, List.mem_singleton_self _, rfl, ?_⟩
        exact pyIn_extend _ _ _ (pyIn_extend _ _ _ (pyIn_extend _ _ _ (pyIn_extend _ _ _
          (pyIn_extend _ _ _ (pyIn_extend _ _ _ (pyIn_extend _ _ _ (pyIn_extend _ _ _
            (pyIn_pre "聚合键 " key))))))))

/-- C7: when a flushed batch fails the consistency check because some
notification does not share the first notification's `seriesId`/`seasonId`,
every notification of the batch is rendered and delivered individually (no
merged message), the state still drops the batch and its timer, and an
error-level log identifying the offending key is emitted. -/
theorem inconsistent_batch_fallback
    (render : TemplateVars → String × String) (st : AggState) (key : String)
    (first : Notif) (rest : List Notif)
    (hlook : lookupA st.pending key = some (first :: rest))
    (hne : ∀ n ∈ first :: rest, n.items ≠ [])
    (fi : Item) (rest1 : List Item) (hfi : first.items = fi :: rest1)
    (hseries : truthyS fi.seriesId = true) (hseason : truthyS fi.seasonId = true)
    (hmismatch : ∃ n ∈ rest, ∃ ni : Item, n.items.head? = some ni ∧
      (ni.seriesId ≠ fi.seriesId ∨ ni.seasonId ≠ fi.seasonId)) :
    (sendAggregatedCore render st key).2.1 =
      (first :: rest).map (fun n =>
        { title := (render n.vars).1, text := (render n.vars).2, photo := none }) ∧
    (sendAggregatedCore render st key).1 =
      { st with pending := eraseA st.pending key, timers := eraseA st.timers key } ∧
    ∃ log ∈ (sendAggregatedCore render st key).2.2,
      log.1 = LogLevel.error ∧ pyIn key log.2 = true := by
  have hrest_ne : rest ≠ [] := by
    rintro rfl
    simp at hmismatch
  have hlen : ¬ (first :: rest).length ≤ 1 := by
    cases rest with
    | nil => exact absurd rfl hrest_ne
    | cons a t =>
      simp only [List.length_cons]
      omega
  obtain ⟨hvfalse, log, hlog, hlevel, hkey⟩ :=
    validateLoop_mismatch fi.seriesId fi.seasonId key rest
      (fun m hm => hne m (List.mem_cons_of_mem _ hm)) hmismatch
  have hval : validateNotificationsConsistency (first :: rest) key =
      validateLoop fi.seriesId fi.seasonId key rest := by
    unfold validateNotificationsConsistency
    rw [if_neg hlen]
    dsimp only
    rw [hfi]
    dsimp only
    rw [if_neg (by rw [hseries, hseason]; simp)]
  have hcore : sendAggregatedCore render st key =
      ({ st with pending := eraseA st.pending key, timers := eraseA st.timers key },
        (first :: rest).map (fun n =>
          { title := (render n.vars).1, text := (render n.vars).2, photo := none }),
        (validateLoop fi.seriesId fi.seasonId key rest).2 ++
          [(.warning, "聚合键 " ++ key ++ " 的通知不一致，分别发送")]) := by
    unfold sendAggregatedCore
    rw [hlook]
    dsimp only
    rw [hval]
    rw [if_pos (by rw [hvfalse]; simp)]
  rw [hcore]
  refine ⟨rfl, rfl, log, ?_, hlevel, hkey⟩
  exact List.mem_append_left _ hlog

/-- Witness for C7: a two-notification batch whose entries disagree on
`SeriesId` is delivered as two separate single messages with an error log
naming the key. -/
theorem inconsistent_batch_fallback_witness :
    ((sendAggregatedCore (fun v => (v.titleYear, ""))
        { pending := [("1_3", [
            { vars := {}, items := [{ seriesId := some "1", seasonId := some "3" }] },
            { vars := {}, items := [{ seriesId := some "9", seasonId := some "3" }] }])],
          timers := [], now := 0, delay := 10 } "1_3").2.1 =
      [{ title := "", text := "", photo := none },
       { title := "", text := "", photo := none }]) ∧
    ∃ log ∈ (sendAggregatedCore (fun v => (v.titleYear, ""))
        { pending := [("1_3", [
            { vars := {}, items := [{ seriesId := some "1", seasonId := some "3" }] },
            { vars := {}, items := [{ seriesId := some "9", seasonId := some "3" }] }])],
          timers := [], now := 0, delay := 10 } "1_3").2.2,
      log.1 = LogLevel.error ∧ pyIn "1_3" log.2 = true := by
  have h := inconsistent_batch_fallback (fun v => (v.titleYear, ""))
    { pending := [("1_3", [
        { vars := {}, items := [{ seriesId := some "1", seasonId := some "3" }] },
        { vars := {}, items := [{ seriesId := some "9", seasonId := some "3" }] }])],
      timers := [], now := 0, delay := 10 } "1_3"
    { vars := {}, items := [{ seriesId := some "1", seasonId := some "3" }] }
    [{ vars := {}, items := [{ seriesId := some "9", seasonId := some "3" }] }]
    rfl (by intro n hn; fin_cases hn <;> simp)
    { seriesId := some "1", seasonId := some "3" } [] rfl rfl rfl
    ⟨{ vars := {}, items := [{ seriesId := some "9", seasonId := some "3" }] },
      List.mem_cons_self .., { seriesId := some "9", seasonId := some "3" }, rfl,
      Or.inl (by decide)⟩
  exact ⟨h.1, h.2.2⟩

/-! ### Claim C8: missing-key fallback -/

/-- C8: an episode submission whose first item lacks a truthy `SeriesId` or
`SeasonId` is rendered and delivered immediately as a singleton — the state
is unchanged (no batch entry is created), a warning-level anomaly is logged,
and the submission's return value is the delivery success — and the
delivered message is identical to the one a batch-of-one flush of the same
notification produces. -/
theorem missing_key_immediate_send
    (render : TemplateVars → String × String) (sendOk : Msg → Bool)
    (st : AggState) (n : Notif) (it : Item) (rest : List Item)
    (hitems : n.items = it :: rest)
    (hmiss : ¬ truthyS it.seriesId = true ∨ ¬ truthyS it.seasonId = true) :
    addEpisodeNotification render sendOk st n =
      (st, [singleEpisodeMsg render n.vars],
        [(.warning, "无法获取 SeriesId 或 SeasonId，直接发送通知")],
        sendOk (singleEpisodeMsg render n.vars)) ∧
    ∀ (key : String) (st2 : AggState), lookupA st2.pending key = some [n] →
      (sendAggregatedCore render st2 key).2.1 = [singleEpisodeMsg render n.vars] := by
  constructor
  · unfold addEpisodeNotification
    rw [hitems]
    dsimp only
    rw [if_pos hmiss]
  · intro key st2 hlook
    unfold sendAggregatedCore
    rw [hlook]
    dsimp only
    rw [show validateNotificationsConsistency [n] key = (true, []) from by
      unfold validateNotificationsConsistency
      rw [if_pos (by simp)]]
    dsimp only
    rw [if_neg (by simp), if_pos (by simp)]

/-- Witness for C8: a notification whose item has no `SeriesId` at all. -/
theorem missing_key_immediate_send_witness :
    (addEpisodeNotification (fun v => (v.titleYear, "x")) (fun _ => true)
        { pending := [], timers := [], now := 0, delay := 10 }
        { vars := {}, items := [{ seriesId := none, seasonId := some "5" }] } =
      ({ pending := [], timers := [], now := 0, delay := 10 },
        [singleEpisodeMsg (fun v => (v.titleYear, "x"))
          ({ vars := {}, items := [{ seriesId := none, seasonId := some "5" }] } : Notif).vars],
        [(.warning, "无法获取 SeriesId 或 SeasonId，直接发送通知")], true)) ∧
    (sendAggregatedCore (fun v => (v.titleYear, "x"))
        { pending :=
            [("k", [{ vars := {}, items := [{ seriesId := none, seasonId := some "5" }] }])],
          timers := [], now := 0, delay := 10 } "k").2.1 =
      [singleEpisodeMsg (fun v => (v.titleYear, "x"))
        ({ vars := {}, items := [{ seriesId := none, seasonId := some "5" }] } : Notif).vars] := by
  have h := missing_key_immediate_send (fun v => (v.titleYear, "x")) (fun _ => true)
    { pending := [], timers := [], now := 0, delay := 10 }
    { vars := {}, items := [{ seriesId := none, seasonId := some "5" }] }
    { seriesId := none, seasonId := some "5" } [] rfl (Or.inl (by decide))
  exact ⟨h.1, h.2 "k"
    { pending :=
        [("k", [{ vars := {}, items := [{ seriesId := none, seasonId := some "5" }] }])],
      timers := [], now := 0, delay := 10 } rfl⟩

/-! ### Claim C1: batching key and delivery outcomes -/

lemma addEpisode_buffered (render : TemplateVars → String × String)
    (sendOk : Msg → Bool) (st : AggState) (n : Notif) (it : Item)
    (r : List Item) (hitems : n.items = it :: r) (s t : String)
    (hs : it.seriesId = some s) (ht : it.seasonId = some t)
    (hsne : s ≠ "") (htne : t ≠ "") :
    addEpisodeNotification render sendOk st n =
      ({ st with
          pending := appendPending st.pending (aggregationKey s t) n,
          timers := setA st.timers (aggregationKey s t) (st.now + st.delay) },
        [], [], true) := by
  unfold addEpisodeNotification
  rw [hitems]
  dsimp only
  rw [hs, ht]
  rw [if_neg (by simp [truthyS, hsne, htne])]
  rfl

lemma sendAggregatedCore_singleton (render : TemplateVars → String × String)
    (st : AggState) (key : String) (n : Notif)
    (hlook : lookupA st.pending key = some [n]) :
    sendAggregatedCore render st key =
      ({ st with pending := eraseA st.pending key, timers := eraseA st.timers key },
        [singleEpisodeMsg render n.vars], [(.info, "发送单集通知: " ++ key)]) := by
  unfold sendAggregatedCore
  rw [hlook]
  dsimp only
  rw [show validateNotificationsConsistency [n] key = (true, []) from by
    unfold validateNotificationsConsistency
    rw [if_pos (by simp)]]
  dsimp only
  rw [if_neg (by simp), if_pos (by simp)]

lemma sendAggregatedCore_fallback (render : TemplateVars → String × String)
    (st : AggState) (key : String) (first : Notif) (rest : List Notif)
    (hlook : lookupA st.pending key = some (first :: rest))
    (hval : (validateNotificationsConsistency (first :: rest) key).1 = false) :
    (sendAggregatedCore render st key).1 =
      { st with pending := eraseA st.pending key, timers := eraseA st.timers key } ∧
    (sendAggregatedCore render st key).2.1 =
      (first :: rest).map (fun n =>
        { title := (render n.vars).1, text := (render n.vars).2, photo := none }) := by
  unfold sendAggregatedCore
  rw [hlook]
  dsimp only
  rw [if_pos (by rw [hval]; simp)]
  exact ⟨rfl, rfl⟩

lemma sendAggregatedCore_pair (render : TemplateVars → String × String)
    (st : AggState) (key : String) (n1 n2 : Notif)
    (hlook : lookupA st.pending key = some [n1, n2])
    (it1 : Item) (r1 : List Item) (h1 : n1.items = it1 :: r1)
    (hs : truthyS it1.seriesId = true) (ht : truthyS it1.seasonId = true)
    (it2 : Item) (r2 : List Item) (h2 : n2.items = it2 :: r2)
    (heq : it2.seriesId = it1.seriesId ∧ it2.seasonId = it1.seasonId) :
    sendAggregatedCore render st key =
      ({ st with pending := eraseA st.pending key, timers := eraseA st.timers key },
        [{ title := (createAggregatedMessage [n1, n2]).1,
           text := (createAggregatedMessage [n1, n2]).2,
           photo := n1.vars.tmdbImageUrl }],
        [(.info, "发送聚合通知: " ++ key ++ ", 共 "
            ++ toString ([n1, n2] : List Notif).length ++ " 集")]) := by
  have hval : validateNotificationsConsistency [n1, n2] key = (true, []) := by
    unfold validateNotificationsConsistency
    rw [if_neg (by simp)]
    dsimp only
    rw [h1]
    dsimp only
    rw [if_neg (by rw [hs, ht]; simp)]
    unfold validateLoop
    rw [h2]
    dsimp only
    rw [if_pos heq]
    rfl
  unfold sendAggregatedCore
  rw [hlook]
  dsimp only
  rw [hval]
  dsimp only
  rw [if_neg (by simp), if_neg (by simp)]

/-- C1 counterexample: the aggregation key is the underscore-joined string
`f"{series_id}_{season_id}"`, so the distinct pairs `("1_2", "3")` and
`("1", "2_3")` collide — two submissions with differing
`(seriesId, seasonId)` pairs are placed in the **same** pending batch. -/
theorem aggregation_key_collision_counterexample :
    aggregationKey "1_2" "3" = aggregationKey "1" "2_3" ∧
    (some "1_2", some "3") ≠ ((some "1", some "2_3") : Option String × Option String) ∧
    (addEpisodeNotification (fun v => (v.titleYear, "")) (fun _ => true)
      ((addEpisodeNotification (fun v => (v.titleYear, "")) (fun _ => true)
        { pending := [], timers := [], now := 0, delay := 10 }
        { vars := {}, items := [{ seriesId := some "1_2", seasonId := some "3" }] }).1)
      { vars := {}, items := [{ seriesId := some "1", seasonId := some "2_3" }] }).1.pending =
      [("1_2_3",
        [{ vars := {}, items := [{ seriesId := some "1_2", seasonId := some "3" }] },
         { vars := {}, items := [{ seriesId := some "1", seasonId := some "2_3" }] }])] := by
  refine ⟨by decide, by decide, ?_⟩
  rfl

/-- C1 (amended): two episode notifications are placed in the same pending
batch **iff** their underscore-joined aggregation keys
`f"{seriesId}_{seasonId}"` are equal; equal `(seriesId, seasonId)` pairs
always share a batch, but distinct pairs can collide on the joined string.
Deliveries: with equal pairs the flush delivers exactly one merged message
built from both notifications (whose collected episode codes are both
submitted codes); with differing pairs, two separate single deliveries
result — either from two independent batches (distinct keys) or via the
consistency fallback (colliding keys). -/
theorem aggregation_key_amended
    (render : TemplateVars → String × String) (sendOk : Msg → Bool)
    (st0 : AggState) (hp0 : st0.pending = [])
    (n1 n2 : Notif) (it1 it2 : Item) (r1 r2 : List Item)
    (h1 : n1.items = it1 :: r1) (h2 : n2.items = it2 :: r2)
    (s1 t1 s2 t2 : String)
    (hs1 : it1.seriesId = some s1) (ht1 : it1.seasonId = some t1)
    (hs2 : it2.seriesId = some s2) (ht2 : it2.seasonId = some t2)
    (hs1ne : s1 ≠ "") (ht1ne : t1 ≠ "") (hs2ne : s2 ≠ "") (ht2ne : t2 ≠ "")
    (c1 c2 : String)
    (hc1 : n1.vars.seasonEpisode = some c1) (hc2 : n2.vars.seasonEpisode = some c2)
    (hc1ne : c1 ≠ "") (hc2ne : c2 ≠ "")
    (st1 st2 : AggState)
    (hst1 : st1 = (addEpisodeNotification render sendOk st0 n1).1)
    (hst2 : st2 = (addEpisodeNotification render sendOk st1 n2).1) :
    (addEpisodeNotification render sendOk st0 n1).2.1 = [] ∧
    (addEpisodeNotification render sendOk st1 n2).2.1 = [] ∧
    (aggregationKey s1 t1 = aggregationKey s2 t2 →
      st2.pending = [(aggregationKey s1 t1, [n1, n2])]) ∧
    (aggregationKey s1 t1 ≠ aggregationKey s2 t2 →
      st2.pending = [(aggregationKey s1 t1, [n1]), (aggregationKey s2 t2, [n2])]) ∧
    ((s1, t1) = (s2, t2) →
      (sendAggregatedCore render st2 (aggregationKey s1 t1)).2.1 =
        [{ title := (createAggregatedMessage [n1, n2]).1,
           text := (createAggregatedMessage [n1, n2]).2,
           photo := n1.vars.tmdbImageUrl }] ∧
      collectEpisodes [n1, n2] = [c1, c2]) ∧
    (aggregationKey s1 t1 = aggregationKey s2 t2 → (s1, t1) ≠ (s2, t2) →
      (sendAggregatedCore render st2 (aggregationKey s1 t1)).2.1 =
        [{ title := (render n1.vars).1, text := (render n1.vars).2, photo := none },
         { title := (render n2.vars).1, text := (render n2.vars).2, photo := none }]) ∧
    (aggregationKey s1 t1 ≠ aggregationKey s2 t2 →
      (sendAggregatedCore render st2 (aggregationKey s1 t1)).2.1 =
        [singleEpisodeMsg render n1.vars] ∧
      (sendAggregatedCore render
          (sendAggregatedCore render st2 (aggregationKey s1 t1)).1
          (aggregationKey s2 t2)).2.1 = [singleEpisodeMsg render n2.vars]) := by
  subst hst1
  subst hst2
  have e1 := addEpisode_buffered render sendOk st0 n1 it1 r1 h1 s1 t1 hs1 ht1 hs1ne ht1ne
  have hpend1 : (addEpisodeNotification render sendOk st0 n1).1.pending =
      [(aggregationKey s1 t1, [n1])] := by
    rw [e1]
    dsimp only
    rw [hp0]
    rfl
  have e2 := addEpisode_buffered render sendOk
    ((addEpisodeNotification render sendOk st0 n1).1) n2 it2 r2 h2 s2 t2 hs2 ht2 hs2ne ht2ne
  have hpend2eq : aggregationKey s1 t1 = aggregationKey s2 t2 →
      (addEpisodeNotification render sendOk
        ((addEpisodeNotification render sendOk st0 n1).1) n2).1.pending =
      [(aggregationKey s1 t1, [n1, n2])] := by
    intro hk
    rw [e2]
    dsimp only
    rw [hpend1, ← hk]
    simp [appendPending, lookupA, setA]
  have hpend2ne : aggregationKey s1 t1 ≠ aggregationKey s2 t2 →
      (addEpisodeNotification render sendOk
        ((addEpisodeNotification render sendOk st0 n1).1) n2).1.pending =
      [(aggregationKey s1 t1, [n1]), (aggregationKey s2 t2, [n2])] := by
    intro hk
    rw [e2]
    dsimp only
    rw [hpend1]
    simp [appendPending, lookupA, setA, hk]
  have htr1s : truthyS it1.seriesId = true := by rw [hs1]; simp [truthyS, hs1ne]
  have htr1t : truthyS it1.seasonId = true := by rw [ht1]; simp [truthyS, ht1ne]
  refine ⟨by rw [e1], by rw [e2], hpend2eq, hpend2ne, ?_, ?_, ?_⟩
  · -- equal pairs: merged delivery
    intro hpair
    obtain ⟨hseq, hteq⟩ := Prod.mk.injEq .. ▸ hpair
    subst hseq
    subst hteq
    have hp2 := hpend2eq rfl
    have hlook : lookupA ((addEpisodeNotification render sendOk
        ((addEpisodeNotification render sendOk st0 n1).1) n2).1).pending
        (aggregationKey s1 t1) = some [n1, n2] := by
      rw [hp2]
      simp [lookupA]
    rw [sendAggregatedCore_pair render _ _ n1 n2 hlook it1 r1 h1 htr1s htr1t it2 r2 h2
      ⟨by rw [hs2, hs1], by rw [ht2, ht1]⟩]
    refine ⟨rfl, ?_⟩
    simp [collectEpisodes, hc1, hc2, hc1ne, hc2ne]
  · -- colliding keys, differing pairs: consistency fallback
    intro hk hpair
    have hp2 := hpend2eq hk
    have hlook : lookupA ((addEpisodeNotification render sendOk
        ((addEpisodeNotification render sendOk st0 n1).1) n2).1).pending
        (aggregationKey s1 t1) = some [n1, n2] := by
      rw [hp2]
      simp [lookupA]
    have hmis : ¬ (it2.seriesId = it1.seriesId ∧ it2.seasonId = it1.seasonId) := by
      rintro ⟨ha, hb⟩
      rw [hs2, hs1] at ha
      rw [ht2, ht1] at hb
      exact hpair (by rw [Option.some.injEq] at ha hb; rw [ha, hb])
    have hval : (validateNotificationsConsistency [n1, n2]
        (aggregationKey s1 t1)).1 = false := by
      have hveq : validateNotificationsConsistency [n1, n2] (aggregationKey s1 t1) =
          validateLoop it1.seriesId it1.seasonId (aggregationKey s1 t1) [n2] := by
        unfold validateNotificationsConsistency
        rw [if_neg (by simp)]
        dsimp only
        rw [h1]
        dsimp only
        rw [if_neg (by rw [htr1s, htr1t]; simp)]
      rw [hveq]
      unfold validateLoop
      rw [h2]
      dsimp only
      rw [if_neg hmis]
    exact (sendAggregatedCore_fallback render _ _ n1 [n2] hlook hval).2
  · -- distinct keys: two independent deliveries
    intro hk
    have hp2 := hpend2ne hk
    have hlook1 : lookupA ((addEpisodeNotification render sendOk
        ((addEpisodeNotification render sendOk st0 n1).1) n2).1).pending
        (aggregationKey s1 t1) = some [n1] := by
      rw [hp2]
      simp [lookupA]
    have hflush1 := sendAggregatedCore_singleton render _ (aggregationKey s1 t1) n1 hlook1
    constructor
    · rw [hflush1]
    · rw [hflush1]
      dsimp only
      have hlook2 : lookupA (eraseA [(aggregationKey s1 t1, [n1]),
          (aggregationKey s2 t2, [n2])] (aggregationKey s1 t1)) (aggregationKey s2 t2) =
          some [n2] := by
        simp [eraseA, lookupA]
      have hflush2 := sendAggregatedCore_singleton render
        ({ (addEpisodeNotification render sendOk
            ((addEpisodeNotification render sendOk st0 n1).1) n2).1 with
          pending := eraseA ((addEpisodeNotification render sendOk
            ((addEpisodeNotification render sendOk st0 n1).1) n2).1).pending
            (aggregationKey s1 t1),
          timers := eraseA ((addEpisodeNotification render sendOk
            ((addEpisodeNotification render sendOk st0 n1).1) n2).1).timers
            (aggregationKey s1 t1) })
        (aggregationKey s2 t2) n2 (by dsimp only; rw [hp2]; exact hlook2)
      rw [hflush2]

/-- Witness for C1 (amended): two notifications for series `"1"`, season
`"3"` with codes `S01E01`, `S01E02` submitted to an empty aggregator flush
as exactly one merged message collecting both codes. -/
theorem aggregation_key_amended_witness :
    ((sendAggregatedCore (fun v => (v.titleYear, ""))
        ((addEpisodeNotification (fun v => (v.titleYear, "")) (fun _ => true)
          ((addEpisodeNotification (fun v => (v.titleYear, "")) (fun _ => true)
            { pending := [], timers := [], now := 0, delay := 10 }
            { vars := { seasonEpisode := some "S01E01" },
              items := [{ seriesId := some "1", seasonId := some "3" }] }).1)
          { vars := { seasonEpisode := some "S01E02" },
            items := [{ seriesId := some "1", seasonId := some "3" }] }).1)
        (aggregationKey "1" "3")).2.1 =
      [{ title := (createAggregatedMessage
            [{ vars := { seasonEpisode := some "S01E01" },
               items := [{ seriesId := some "1", seasonId := some "3" }] },
             { vars := { seasonEpisode := some "S01E02" },
               items := [{ seriesId := some "1", seasonId := some "3" }] }]).1,
         text := (createAggregatedMessage
            [{ vars := { seasonEpisode := some "S01E01" },
               items := [{ seriesId := some "1", seasonId := some "3" }] },
             { vars := { seasonEpisode := some "S01E02" },
               items := [{ seriesId := some "1", seasonId := some "3" }] }]).2,
         photo := none }]) ∧
    collectEpisodes
        [{ vars := { seasonEpisode := some "S01E01" },
           items := [{ seriesId := some "1", seasonId := some "3" }] },
         { vars := { seasonEpisode := some "S01E02" },
           items := [{ seriesId := some "1", seasonId := some "3" }] }] =
      ["S01E01", "S01E02"] :=
  (aggregation_key_amended (fun v => (v.titleYear, "")) (fun _ => true)
    { pending := [], timers := [], now := 0, delay := 10 } rfl
    { vars := { seasonEpisode := some "S01E01" },
      items := [{ seriesId := some "1", seasonId := some "3" }] }
    { vars := { seasonEpisode := some "S01E02" },
      items := [{ seriesId := some "1", seasonId := some "3" }] }
    { seriesId := some "1", seasonId := some "3" }
    { seriesId := some "1", seasonId := some "3" } [] [] rfl rfl
    "1" "3" "1" "3" rfl rfl rfl rfl
    (by decide) (by decide) (by decide) (by decide)
    "S01E01" "S01E02" rfl rfl (by decide) (by decide)
    _ _ rfl rfl).2.2.2.2.1 rfl
